import Mathlib

/-!
Verification development for the result-size calculation engine of
`graphql-result-size` (src/calculate.js together with the node-identity
collaborators of src/functions.js: `createNode`, `getRootNode`, `nodeType`).

The JavaScript engine is shallowly embedded as follows.

* JS values that flow through resolvers are modelled by `JsVal`
  (null, undefined, numbers, strings, arrays, objects).  Arrays and
  object field lists are modelled by the mutually inductive `JsList` and
  `JsFields` so that equality is decidable by structural recursion.
* The canonicalized selection tree (the query, after `deleteKey(..., 'loc')`)
  is modelled by `Selection`/`Sels`.  A field item without a selection set
  (the `!(query[0].selectionSet)` case) is `Selection.scalarField`, a field
  item with a selection set is `Selection.objField`, and an inline fragment
  is `Selection.inlineFrag`.
* The source builds map keys with `JSON.stringify([u, print(query)])` and
  label keys with `JSON.stringify(u)` / `JSON.stringify(query)`; since these
  serializations are injective on the data reaching them, keys are modelled
  by the pairs themselves (`MapKey := Node × Sels`).
* The shared mutable `structures`/`calculationContext` objects are modelled
  by the record `Structures`, threaded through an explicit state-passing
  interpreter.  The asynchronous promise graph is interpreted sequentially
  (depth-first, left-to-right); the interleaving-sensitive behaviour of the
  termination controller (`checkTermination` racing the timeout timer of
  `queryCalculator`) is modelled separately by `timerFire`.
* JavaScript runtime exceptions (`ReferenceError`, `TypeError`) and the
  non-termination of awaiting a promise that depends on itself are modelled
  by the `Except String` error channel of the interpreter.
* `Structures.resolverCalls` and `Structures.populateCalls` are ghost
  instrumentation counters (they record how often the backend resolver was
  invoked and how often `populateDataStructures` was entered); they are
  never read by the algorithm itself.
-/

/- JavaScript values as they flow through field resolvers: `null`,
`undefined`, numbers, strings, arrays and plain objects.  Mutually
inductive with `JsList` (array contents) and `JsFields` (object fields)
so that structural equality is decidable by structural recursion. -/
mutual

inductive JsVal : Type where
  | null : JsVal
  | undef : JsVal
  | num (n : Int) : JsVal
  | str (s : String) : JsVal
  | arr (elems : JsList) : JsVal
  | obj (fields : JsFields) : JsVal

inductive JsList : Type where
  | nil : JsList
  | cons (hd : JsVal) (tl : JsList) : JsList

inductive JsFields : Type where
  | nil : JsFields
  | cons (name : String) (hd : JsVal) (tl : JsFields) : JsFields

end

mutual

def JsVal.beq : JsVal → JsVal → Bool
  | .null, .null => true
  | .undef, .undef => true
  | .num a, .num b => a == b
  | .str a, .str b => a == b
  | .arr xs, .arr ys => JsList.beq xs ys
  | .obj xs, .obj ys => JsFields.beq xs ys
  | _, _ => false

def JsList.beq : JsList → JsList → Bool
  | .nil, .nil => true
  | .cons a as, .cons b bs => JsVal.beq a b && JsList.beq as bs
  | _, _ => false

def JsFields.beq : JsFields → JsFields → Bool
  | .nil, .nil => true
  | .cons n a as, .cons m b bs => n == m && JsVal.beq a b && JsFields.beq as bs
  | _, _ => false

end

/-- Length of a modelled JS array. -/
def JsList.length : JsList → Nat
  | .nil => 0
  | .cons _ tl => 1 + tl.length

/-- View a modelled JS array as a Lean list. -/
def JsList.toList : JsList → List JsVal
  | .nil => []
  | .cons hd tl => hd :: tl.toList

/- One item of a selection set: a field without sub-selection (scalar), a
field with a sub-selection, or an inline fragment with a type condition.
Field arguments have no bearing on the size computation and are omitted. -/
mutual

inductive Selection : Type where
  | scalarField (name : String) : Selection
  | objField (name : String) (sels : Sels) : Selection
  | inlineFrag (onType : String) (sels : Sels) : Selection

inductive Sels : Type where
  | nil : Sels
  | cons (hd : Selection) (tl : Sels) : Sels

end

mutual

def Selection.beq : Selection → Selection → Bool
  | .scalarField a, .scalarField b => a == b
  | .objField a as, .objField b bs => a == b && Sels.beq as bs
  | .inlineFrag a as, .inlineFrag b bs => a == b && Sels.beq as bs
  | _, _ => false

def Sels.beq : Sels → Sels → Bool
  | .nil, .nil => true
  | .cons a as, .cons b bs => Selection.beq a b && Sels.beq as bs
  | _, _ => false

end

/-- Number of items in a selection set. -/
def Sels.length : Sels → Nat
  | .nil => 0
  | .cons _ tl => 1 + tl.length

/-- View a selection set as a Lean list of its items. -/
def Sels.toList : Sels → List Selection
  | .nil => []
  | .cons hd tl => hd :: tl.toList

/-- Structural equality of data-graph nodes, mirroring equality of their
`JSON.stringify` serializations. -/
structure Node : Type where
  id : JsVal
  table : String

def Node.beq (a b : Node) : Bool :=
  JsVal.beq a.id b.id && a.table == b.table

/-- A memoization key: the pair of a data node and a (sub)query, modelling
`getMapKey(u, query) = JSON.stringify([u, print(query)])` of calculate.js. -/
abbrev MapKey : Type := Node × Sels

/-- Builds the lookup key for a (node, subquery) pair (`getMapKey`). -/
def getMapKey (u : Node) (query : Sels) : MapKey := (u, query)

def MapKey.beq (a b : MapKey) : Bool :=
  Node.beq a.1 b.1 && Sels.beq a.2 b.2

/-- One element of the modelled JS array that
`updateDataStructuresForScalarFieldValue` builds for an array-valued scalar
result: either a pushed string (bracket, comma, quoted string) or a raw
non-string JS value. -/
inductive AElem : Type where
  | lit (s : String) : AElem
  | val (v : JsVal) : AElem

/-- One element of a `resultMap` entry.  `lit` models a pushed string,
`val` a pushed raw JS value (null, undefined, a number, or the corner cases
of a pushed object), `ref` models the singleton array `[mapKeyForSubquery]`
holding a reference to another key, and `arrv` models the JS array built for
an array-valued scalar field (whose length is always at least 2). -/
inductive RElem : Type where
  | lit (s : String) : RElem
  | val (v : JsVal) : RElem
  | ref (k : MapKey) : RElem
  | arrv (xs : List AElem) : RElem

/-- The shared mutable state of one top-level invocation: the three maps of
`structures`, the hit and global-size counters, and the mutable `errorCode`
field of `calculationContext`.  (`earlyTerminationTimestamp` is wall-clock
instrumentation and is not modelled.)  `resolverCalls` and `populateCalls`
are ghost counters used only by the verification: they count backend
resolver invocations and entries into `populateDataStructures`. -/
structure Structures : Type where
  labelMap : List (Node × List Sels)
  sizeMap : List (MapKey × Nat)
  resultMap : List (MapKey × List RElem)
  hits : Nat
  globalSize : Nat
  errorCode : Option String
  resolverCalls : Nat
  populateCalls : Nat

/-- The immutable parts of `calculationContext`: the threshold and the
`terminateEarly` flag (both are never written by the algorithm). -/
structure Ctx : Type where
  threshold : Nat
  terminateEarly : Bool

/-- Type information for one field, abstracting the GraphQL `fieldDef`:
`relatedType` is the name of `fieldDef.type.ofType` when the declared type
is a list and of `fieldDef.type` otherwise (the source consults
`fieldDef.astNode.type.kind` for exactly this choice). -/
structure FieldDef : Type where
  relatedType : String

/-- The backend/schema collaborators, out of core scope in the spec:
`fields ty f` models `uType.getFields()[f]` for the type named `ty`;
`resolve parent f` models invoking `fieldDef.resolve(parentForResolvers,
args, context, info)`; `idField ty` models the scan of the type ty for a
field of type `ID` that `createNode` of functions.js performs. -/
structure Env : Type where
  fields : String → String → Option FieldDef
  resolve : JsVal → String → JsVal
  idField : String → Option String

/-- Property access `v[f]` on a modelled JS value (undefined when absent or
when the value is not an object). -/
def jsIndex : JsVal → String → JsVal
  | .obj fs, f => jsIndexFields fs f
  | _, _ => JsVal.undef
where
  jsIndexFields : JsFields → String → JsVal
    | .nil, _ => JsVal.undef
    | .cons n v tl, f => if n == f then v else jsIndexFields tl f

/-- `nodeType` of functions.js: the concrete type name of a node. -/
def nodeType (node : Node) : String := node.table

/-- `getRootNode` of functions.js: `new Node(0, queryType.name)`. -/
def getRootNode (queryTypeName : String) : Node :=
  { id := JsVal.num 0, table := queryTypeName }

/-- `createNode` of functions.js: derives the node for a resolved item.
The id is the value of the related type's `ID`-typed field when that type
declares one (the `_.forOwn` scan, modelled by `Env.idField`), and the item
itself otherwise; the table is the related type's name. -/
def createNode (env : Env) (item : JsVal) (fd : FieldDef) : Node :=
  match env.idField fd.relatedType with
  | some f => { id := jsIndex item f, table := fd.relatedType }
  | none => { id := item, table := fd.relatedType }

/-- First-match lookup in the label map (`labelMap.get(curnodeAsString)`). -/
def lmGet : List (Node × List Sels) → Node → Option (List Sels)
  | [], _ => none
  | (u, qs) :: rest, u0 => if Node.beq u u0 then some qs else lmGet rest u0

def memSels : List Sels → Sels → Bool
  | [], _ => false
  | q :: qs, q0 => Sels.beq q q0 || memSels qs q0

/-- `queryAlreadyConsideredForNode` of calculate.js: whether the given
(sub)query is recorded for the given node in the label map. -/
def queryAlreadyConsideredForNode (m : List (Node × List Sels)) (u : Node) (q : Sels) : Bool :=
  match lmGet m u with
  | some qs => memSels qs q
  | none => false

/-- `markQueryAsConsideredForNode` of calculate.js: append the query to the
node's entry, creating the entry if absent (JS `Map` keys are unique, so
only the first matching entry is updated). -/
def markQueryAsConsideredForNode : List (Node × List Sels) → Node → Sels → List (Node × List Sels)
  | [], u, q => [(u, [q])]
  | (u0, qs) :: rest, u, q =>
    if Node.beq u0 u then (u0, qs ++ [q]) :: rest
    else (u0, qs) :: markQueryAsConsideredForNode rest u q

/-- First-match lookup in the size map. -/
def smGet : List (MapKey × Nat) → MapKey → Option Nat
  | [], _ => none
  | (k, v) :: rest, k0 => if MapKey.beq k k0 then some v else smGet rest k0

/-- `sizeMap.set(mapKey, sizePromise)`: record the size for a key (prepend;
lookup is first-match, so this has JS `Map.set` overwrite semantics). -/
def smSet (m : List (MapKey × Nat)) (k : MapKey) (v : Nat) : List (MapKey × Nat) :=
  (k, v) :: m

/-- First-match lookup in the result map. -/
def rmGet : List (MapKey × List RElem) → MapKey → Option (List RElem)
  | [], _ => none
  | (k, es) :: rest, k0 => if MapKey.beq k k0 then some es else rmGet rest k0

/-- `initializeDataStructures` of calculate.js: create an empty token list
for the key unless one already exists. -/
def initializeDataStructures (m : List (MapKey × List RElem)) (k : MapKey) : List (MapKey × List RElem) :=
  match rmGet m k with
  | some _ => m
  | none => (k, []) :: m

/-- `resultMap.get(mapKey).push(e)`: append a token to the key's entry.
(The algorithm only ever pushes to keys it has initialized, so the
absent-key case is unreachable and modelled as a no-op.) -/
def rmPush : List (MapKey × List RElem) → MapKey → RElem → List (MapKey × List RElem)
  | [], _, _ => []
  | (k, es) :: rest, k0, e =>
    if MapKey.beq k k0 then (k, es ++ [e]) :: rest
    else (k, es) :: rmPush rest k0 e

/-- `checkTermination` of calculate.js: report (and, in early-termination
mode with a nonzero threshold, flag) a termination condition. -/
def checkTermination (ctx : Ctx) (s : Structures) : Bool × Structures :=
  match s.errorCode with
  | some _ => (true, s)
  | none =>
    if ctx.terminateEarly && ctx.threshold != 0 && decide (ctx.threshold < s.globalSize) then
      (true, { s with errorCode := some "EARLY_TERMINATION_RESULT_SIZE_LIMIT_EXCEEDED" })
    else (false, s)

/-- `resolveField` of calculate.js: re-check the termination controller and
either return a no-op `null` without touching the backend, or invoke the
backend resolver (counted by the ghost `resolverCalls`).  The sequential
model does not need the `pLimit` concurrency queue. -/
def resolveField (env : Env) (ctx : Ctx) (parent : JsVal) (fieldName : String) (s : Structures) : JsVal × Structures :=
  let p := checkTermination ctx s
  if p.1 then (JsVal.null, p.2)
  else (env.resolve parent fieldName, { p.2 with resolverCalls := p.2.resolverCalls + 1 })

/-- The size computed by `updateDataStructuresForScalarFieldValue` of
calculate.js from the resolved value of a scalar field: 2 for the field
name and colon, plus 1 for a non-array value, and for an array 2 for the
brackets plus 1 when it has one element and `2*length - 1` when more. -/
def scalarResultSize (result : JsVal) : Nat :=
  match result with
  | .arr xs =>
    if xs.length == 1 then 2 + 2 + 1
    else if 1 < xs.length then 2 + 2 + (xs.length * 2 - 1)
    else 2 + 2
  | _ => 2 + 1

def arrValueInner : JsList → Nat → List AElem
  | .nil, _ => []
  | .cons e tl, idx =>
    (if idx != 0 then [AElem.lit ","] else []) ++
    [match e with
     | .str s => AElem.lit ("\"" ++ s ++ "\"")
     | v => AElem.val v] ++
    arrValueInner tl (idx + 1)

/-- The `value` token that `updateDataStructuresForScalarFieldValue` pushes:
for an object result the `fieldName` property, for an array the bracketed
comma-joined JS array, otherwise the value itself; string values are
quote-wrapped. -/
def scalarValueToken (result : JsVal) (fieldName : String) : RElem :=
  match result with
  | .obj fs =>
    match jsIndex (JsVal.obj fs) fieldName with
    | .str s => RElem.lit ("\"" ++ s ++ "\"")
    | w => RElem.val w
  | .arr xs => RElem.arrv (AElem.lit "[" :: (arrValueInner xs 0 ++ [AElem.lit "]"]))
  | .str s => RElem.lit ("\"" ++ s ++ "\"")
  | v => RElem.val v

/-- `updateDataStructuresForScalarFieldValue` of calculate.js: compute the
size contribution of a resolved scalar-field value, add it to the global
running size, and push the quoted field name with colon followed by the
value token onto the key's result entry. -/
def updateDataStructuresForScalarFieldValue (s : Structures) (key : MapKey) (result : JsVal) (fieldName : String) : Nat × Structures :=
  let size := scalarResultSize result
  let s1 := { s with globalSize := s.globalSize + size }
  let s2 := { s1 with resultMap := rmPush s1.resultMap key (RElem.lit ("\"" ++ fieldName ++ "\":")) }
  let s3 := { s2 with resultMap := rmPush s2.resultMap key (scalarValueToken result fieldName) }
  (size, s3)

/-- The sequential interpretation of the `query.map(...)` loop of
`updateDataStructuresForAllSubqueries`: for each subquery, first consult the
termination controller (contributing size 0 and pushing nothing when it has
fired), otherwise push a comma separator for every subquery but the first,
push a reference token for the subquery's own key, and recurse via `rec`.
Returns the list of subquery sizes (one entry per subquery, as
`Promise.all` does). -/
def goSubqueries (ctx : Ctx) (rec : Sels → Structures → Except String (Nat × Structures)) (u : Node) (key : MapKey) : Sels → Nat → Structures → Except String (List Nat × Structures)
  | .nil, _, s => .ok ([], s)
  | .cons sub rest, idx, s =>
    let p := checkTermination ctx s
    if p.1 then
      match goSubqueries ctx rec u key rest (idx + 1) p.2 with
      | .error e => .error e
      | .ok (szs, s2) => .ok (0 :: szs, s2)
    else
      let s2 := if idx != 0 then { p.2 with resultMap := rmPush p.2.resultMap key (RElem.lit ",") } else p.2
      let s3 := { s2 with resultMap := rmPush s2.resultMap key (RElem.ref (getMapKey u (Sels.cons sub Sels.nil))) }
      match rec (Sels.cons sub Sels.nil) s3 with
      | .error e => .error e
      | .ok (sz, s4) =>
        match goSubqueries ctx rec u key rest (idx + 1) s4 with
        | .error e => .error e
        | .ok (szs, s5) => .ok (sz :: szs, s5)

/-- `updateDataStructuresForObjectFieldResultItem` of calculate.js: add 2 to
the global size for the item's braces, derive the related node via
`createNode`, push `{`, a reference token for the related key, and `}`, and
recurse (via `rec`) into the subquery's selection set against the related
node with the item as the new parent for resolvers; the item's size is the
recursive size plus 2. -/
def updateDataStructuresForObjectFieldResultItem (env : Env) (fd : FieldDef) (sels : Sels) (key : MapKey) (rec : Node → JsVal → Structures → Except String (Nat × Structures)) (item : JsVal) (s : Structures) : Except String (Nat × Structures) :=
  let s1 := { s with globalSize := s.globalSize + 2 }
  let relatedNode := createNode env item fd
  let s2 := { s1 with resultMap := rmPush s1.resultMap key (RElem.lit "\x7b") }
  let s3 := { s2 with resultMap := rmPush s2.resultMap key (RElem.ref (getMapKey relatedNode sels)) }
  let s4 := { s3 with resultMap := rmPush s3.resultMap key (RElem.lit "\x7d") }
  match rec relatedNode item s4 with
  | .error e => .error e
  | .ok (sz, s5) => .ok (sz + 2, s5)

/-- The sequential interpretation of the `result.map(...)` loop of
`updateDataStructuresForObjectFieldResult` for an array-valued object
field: for each item, first consult the termination controller
(contributing 0 and pushing nothing when it has fired), otherwise push a
comma separator for every item but the first and process the item with
`updateDataStructuresForObjectFieldResultItem`. -/
def goItems (env : Env) (ctx : Ctx) (fd : FieldDef) (sels : Sels) (key : MapKey) (rec : Node → JsVal → Structures → Except String (Nat × Structures)) : List JsVal → Nat → Structures → Except String (List Nat × Structures)
  | [], _, s => .ok ([], s)
  | item :: rest, idx, s =>
    let p := checkTermination ctx s
    if p.1 then
      match goItems env ctx fd sels key rec rest (idx + 1) p.2 with
      | .error e => .error e
      | .ok (szs, s2) => .ok (0 :: szs, s2)
    else
      let s2 := if idx != 0 then { p.2 with resultMap := rmPush p.2.resultMap key (RElem.lit ",") } else p.2
      match updateDataStructuresForObjectFieldResultItem env fd sels key rec item s2 with
      | .error e => .error e
      | .ok (sz, s3) =>
        match goItems env ctx fd sels key rec rest (idx + 1) s3 with
        | .error e => .error e
        | .ok (szs, s4) => .ok (sz :: szs, s4)

/-- `populateDataStructures` of calculate.js, interpreted sequentially with
a recursion-depth fuel (`.error "OUT_OF_FUEL"` models a run needing more
depth than allotted; every claim quantifies over sufficient fuel).

On a key already recorded in the label map it increments the hit counter
and returns the memoized size (awaiting a promise that is still pending at
that point — possible only on a self-referential key — never resolves in
JS and is modelled by `.error "PENDING_PROMISE"`).  Otherwise it records
the key, initializes the result entry, dispatches on the shape of the
(sub)query exactly as lines 167-183 of calculate.js do, stores the
resulting size in the size map, and returns it.

The inline-fragment branch mirrors the source faithfully, including the
reference to the undefined variable `fieldInfo` on its matching path
(line 426 of calculate.js), which raises a `ReferenceError` at runtime. -/
def populateDataStructures (env : Env) (ctx : Ctx) : Nat → Node → String → Sels → JsVal → Structures → Except String (Nat × Structures)
  | 0, _, _, _, _, _ => .error "OUT_OF_FUEL"
  | fuel + 1, u, uType, query, parent, s0 =>
    let mapKey := getMapKey u query
    let s := { s0 with populateCalls := s0.populateCalls + 1 }
    if queryAlreadyConsideredForNode s.labelMap u query then
      let s1 := { s with hits := s.hits + 1 }
      match smGet s1.sizeMap mapKey with
      | some size => .ok (size, { s1 with globalSize := s1.globalSize + size })
      | none => .error "PENDING_PROMISE"
    else
      let s1 := { s with labelMap := markQueryAsConsideredForNode s.labelMap u query }
      let s2 := { s1 with resultMap := initializeDataStructures s1.resultMap mapKey }
      match query with
      | .nil =>
        -- query[0] is undefined; accessing query[0].selectionSet throws
        .error "TypeError: query[0] is undefined"
      | .cons a (.cons b rest) =>
        -- updateDataStructuresForAllSubqueries (lines 220-246)
        let q2 := Sels.cons a (Sels.cons b rest)
        let s3 := { s2 with globalSize := s2.globalSize + (q2.length - 1) }
        match goSubqueries ctx (fun q1 st => populateDataStructures env ctx fuel u uType q1 parent st) u mapKey q2 0 s3 with
        | .error e => .error e
        | .ok (szs, s4) =>
          let size := (szs.length - 1) + szs.sum
          .ok (size, { s4 with sizeMap := smSet s4.sizeMap mapKey size })
      | .cons (.scalarField fieldName) .nil =>
        -- updateDataStructuresForScalarField (lines 252-264)
        match env.fields uType fieldName with
        | none =>
          -- the getFieldDef fallback dereferences calculationContext.schema,
          -- a property that does not exist, and fails
          .error "TypeError: fieldDef is undefined"
        | some _ =>
          let p := resolveField env ctx parent fieldName s2
          let q := updateDataStructuresForScalarFieldValue p.2 mapKey p.1 fieldName
          .ok (q.1, { q.2 with sizeMap := smSet q.2.sizeMap mapKey q.1 })
      | .cons (.objField fieldName sels) .nil =>
        -- updateDataStructuresForObjectField (lines 322-343)
        let s3 := { s2 with globalSize := s2.globalSize + 2 }
        let p := checkTermination ctx s3
        if p.1 then .ok (0, { p.2 with sizeMap := smSet p.2.sizeMap mapKey 0 })
        else
          match env.fields uType fieldName with
          | none => .error "TypeError: fieldDef is undefined"
          | some fd =>
            let pr := resolveField env ctx parent fieldName p.2
            let s4 := { pr.2 with resultMap := rmPush pr.2.resultMap mapKey (RElem.lit ("\"" ++ fieldName ++ "\":")) }
            -- updateDataStructuresForObjectFieldResult (lines 348-392)
            match pr.1 with
            | .null =>
              let s5 := { s4 with globalSize := s4.globalSize + 1 }
              let s6 := { s5 with resultMap := rmPush s5.resultMap mapKey (RElem.lit "null") }
              .ok (1 + 2, { s6 with sizeMap := smSet s6.sizeMap mapKey (1 + 2) })
            | .undef =>
              let s5 := { s4 with globalSize := s4.globalSize + 1 }
              let s6 := { s5 with resultMap := rmPush s5.resultMap mapKey (RElem.lit "null") }
              .ok (1 + 2, { s6 with sizeMap := smSet s6.sizeMap mapKey (1 + 2) })
            | .arr items =>
              let s5 := { s4 with globalSize := s4.globalSize + ((2 + items.length) - 1) }
              let s6 := { s5 with resultMap := rmPush s5.resultMap mapKey (RElem.lit "[") }
              match goItems env ctx fd sels mapKey (fun nd it st => populateDataStructures env ctx fuel nd fd.relatedType sels it st) items.toList 0 s6 with
              | .error e => .error e
              | .ok (iszs, s7) =>
                let s8 := { s7 with resultMap := rmPush s7.resultMap mapKey (RElem.lit "]") }
                let size := (((2 + iszs.length) - 1) + iszs.sum) + 2
                .ok (size, { s8 with sizeMap := smSet s8.sizeMap mapKey size })
            | r =>
              match updateDataStructuresForObjectFieldResultItem env fd sels mapKey (fun nd it st => populateDataStructures env ctx fuel nd fd.relatedType sels it st) r s4 with
              | .error e => .error e
              | .ok (isz, s5) =>
                let size := isz + 2
                .ok (size, { s5 with sizeMap := smSet s5.sizeMap mapKey size })
      | .cons (.inlineFrag onType _sels) .nil =>
        -- updateDataStructuresForInlineFragment (lines 420-431)
        if nodeType u == onType then
          -- the reference token is pushed (line 425) and then line 426
          -- evaluates `fieldInfo.exeContext`, where `fieldInfo` is not
          -- defined anywhere in calculate.js
          .error "ReferenceError: fieldInfo is not defined"
        else
          .ok (0, { s2 with sizeMap := smSet s2.sizeMap mapKey 0 })

/-- The coercion `response += element` of `produceResult` applied to one raw
JS value, including the runtime failures of the source: a pushed array
enters the `element.length > 1` branch whose loop body ends in the bare
statement `q` — a variable defined nowhere in calculate.js — raising a
`ReferenceError` (line 481); a shorter pushed array or a pushed object is
treated as a key reference via `element[0]`, and looking that up in the
result map yields `undefined`, whose `.forEach` raises a `TypeError`. -/
def produceVal : JsVal → Except String String
  | .arr xs =>
    if 1 < xs.length then .error "ReferenceError: q is not defined"
    else .error "TypeError: resultMap.get(index) is undefined"
  | .obj _ => .error "TypeError: resultMap.get(index) is undefined"
  | .null => .ok "null"
  | .undef => .ok "null"
  | .num n => .ok (toString n)
  | .str s => .ok s

/-- The `forEach` loop of `produceResult` over the token list of one
result-map entry; `recurse` materializes a referenced key.  An `arrv` token
(a JS array of length at least 2, built for an array-valued scalar field)
always enters the `element.length > 1` branch and hits the bare `q`
statement of line 481, raising a `ReferenceError`. -/
def produceElems (recurse : MapKey → Except String String) : List RElem → Except String String
  | [] => .ok ""
  | e :: rest =>
    let piece : Except String String :=
      match e with
      | .lit s => .ok s
      | .val v => produceVal v
      | .ref k => recurse k
      | .arrv xs =>
        if 1 < xs.length then .error "ReferenceError: q is not defined"
        else .error "TypeError: resultMap.get(index) is undefined"
    match piece with
    | .error err => .error err
    | .ok str =>
      match produceElems recurse rest with
      | .error err => .error err
      | .ok srest => .ok (str ++ srest)

/-- `produceResult` of calculate.js: materialize the token list stored for
a key, splicing in the recursive materialization of referenced keys.  The
fuel bounds the reference-chasing depth (a cyclic reference diverges in the
source). -/
def produceResult (rm : List (MapKey × List RElem)) : Nat → MapKey → Except String String
  | 0, _ => .error "OUT_OF_FUEL"
  | pf + 1, key =>
    match rmGet rm key with
    | none => .error "TypeError: resultMap.get(index) is undefined"
    | some elems => produceElems (produceResult rm pf) elems

/-- The timeout timer callback installed by `queryCalculator` (lines 64-68
of calculate.js): it assigns `calculationContext.errorCode` unconditionally,
overwriting whatever value the field holds. -/
def timerFire (s : Structures) : Structures :=
  { s with errorCode := some "MAX_QUERY_TIME_EXCEEDED" }

/-- The state at the start of one top-level invocation: empty maps and
zeroed counters, no error code. -/
def initialStructures : Structures :=
  { labelMap := [], sizeMap := [], resultMap := [], hits := 0,
    globalSize := 0, errorCode := none, resolverCalls := 0, populateCalls := 0 }

/-- Outcome of one `queryCalculator` invocation: `jsError` when the promise
chain rejects with a runtime exception of the algorithm itself, `rejected c`
when an `ApolloError` with error code `c` is thrown, and `accepted` when the
response reaches `errorCode = OK` (carrying the result size, the cache-hit
count, and the outcome of materializing the root key — which itself can be
a runtime exception, rejecting the promise after `OK` was assigned). -/
inductive QCResult : Type where
  | jsError (e : String) : QCResult
  | rejected (errorCode : String) : QCResult
  | accepted (resultSize : Nat) (cacheHits : Nat) (materialized : Except String String) : QCResult

/-- `queryCalculator` of calculate.js, without the wall-clock timer (the
claims it supports assume the timeout does not fire; the timer's write is
modelled by `timerFire`): run `populateDataStructures` from the initial
state on the root node and root query type; then report the recorded
`errorCode` if one was set, report `RESULT_SIZE_LIMIT_EXCEEDED` if the
threshold is nonzero and exceeded, and otherwise reach `errorCode = OK` and
materialize the root key with `produceResult`. -/
def queryCalculator (env : Env) (ctx : Ctx) (fuel pfuel : Nat) (rootNode : Node) (rootTypeName : String) (query : Sels) (rootParent : JsVal) : QCResult :=
  match populateDataStructures env ctx fuel rootNode rootTypeName query rootParent initialStructures with
  | .error e => .jsError e
  | .ok (resultSize, s) =>
    match s.errorCode with
    | some c => .rejected c
    | none =>
      if ctx.threshold != 0 && decide (ctx.threshold < resultSize) then
        .rejected "RESULT_SIZE_LIMIT_EXCEEDED"
      else
        .accepted resultSize s.hits (produceResult s.resultMap pfuel (getMapKey rootNode query))

/- Structural size measures for selections, used as the termination measure
of the pure reference size function. -/
mutual

def Selection.msize : Selection → Nat
  | .scalarField _ => 1
  | .objField _ sels => 1 + sels.msize
  | .inlineFrag _ sels => 1 + sels.msize

def Sels.msize : Sels → Nat
  | .nil => 0
  | .cons hd tl => hd.msize + tl.msize

end

/-- The size that a complete, unterminated run of `populateDataStructures`
computes for (node, query, parent), defined as a pure recursive function of
the backend data alone: it mirrors the four branch computations of
calculate.js with no memoization and no termination checks (memoization
does not change the computed sizes — that is proved, not assumed).  For a
concatenation it is the head singleton's size plus a separator plus the
tail's size (equivalently, the sum of the singleton sizes plus `n - 1`);
for a matching inline fragment it is the inner selection's size (the branch
the source crashes on). -/
def pureSize (env : Env) : Node → Sels → JsVal → Nat
  | _, .nil, _ => 0
  | u, .cons a (.cons b rest), parent =>
    pureSize env u (Sels.cons a Sels.nil) parent +
      (1 + pureSize env u (Sels.cons b rest) parent)
  | u, .cons (.scalarField fieldName) .nil, parent =>
    match env.fields u.table fieldName with
    | none => 0
    | some _ => scalarResultSize (env.resolve parent fieldName)
  | u, .cons (.objField fieldName sels) .nil, parent =>
    match env.fields u.table fieldName with
    | none => 2
    | some fd =>
      match env.resolve parent fieldName with
      | .null => 1 + 2
      | .undef => 1 + 2
      | .arr items =>
        (((2 + items.length) - 1) +
          (items.toList.map (fun it => pureSize env (createNode env it fd) sels it + 2)).sum) + 2
      | r => (pureSize env (createNode env r fd) sels r + 2) + 2
  | u, .cons (.inlineFrag onType sels) .nil, parent =>
    if u.table == onType then pureSize env u sels parent else 0
termination_by _ q _ => q.msize
decreasing_by
  · have hb : 1 ≤ b.msize := by cases b <;> simp [Selection.msize]
    simp [Sels.msize]
    omega
  · have ha : 1 ≤ a.msize := by cases a <;> simp [Selection.msize]
    simp [Sels.msize]
    omega
  · simp [Sels.msize, Selection.msize]
  · simp [Sels.msize, Selection.msize]
  · simp [Sels.msize, Selection.msize]

/-- Sum of the independently computed singleton sizes of the items of a
selection (no separators). -/
def sumSingles (env : Env) (u : Node) (parent : JsVal) : Sels → Nat
  | .nil => 0
  | .cons x t => pureSize env u (Sels.cons x Sels.nil) parent + sumSingles env u parent t

/-- The list of independently computed singleton sizes of a selection's
items. -/
def pureList (env : Env) (u : Node) (parent : JsVal) : Sels → List Nat
  | .nil => []
  | .cons x t => pureSize env u (Sels.cons x Sels.nil) parent :: pureList env u parent t

/-- The per-item sizes of an array-valued object field: recursive size of
the related node plus 2 for the item's braces. -/
def pureItemSizes (env : Env) (fd : FieldDef) (sels : Sels) (items : List JsVal) : List Nat :=
  items.map (fun it => pureSize env (createNode env it fd) sels it + 2)

/-- Total number of (node, query) pairs recorded in the label map. -/
def labelCount (m : List (Node × List Sels)) : Nat :=
  (m.map (fun p => p.2.length)).sum

/-- The node-identity coherence relation of the data model (spec section 3):
`p` is a parent value from which the node `u` can be derived — either `u`
is the root node and `p` the root value, or `u` is obtained from `p` by
`createNode` for some field definition. -/
def KeyParent (env : Env) (rootNode : Node) (rootParent : JsVal) (u : Node) (p : JsVal) : Prop :=
  (u = rootNode ∧ p = rootParent) ∨ ∃ fd : FieldDef, u = createNode env p fd

/-- Faithfulness of node identity (spec section 3: nodes produced for the
same logical entity "must compare equal each time — this is required for
memoization correctness"): a node determines the parent value it was
derived from. -/
def KeyParentFun (env : Env) (rootNode : Node) (rootParent : JsVal) : Prop :=
  ∀ u p1 p2, KeyParent env rootNode rootParent u p1 →
    KeyParent env rootNode rootParent u p2 → p1 = p2

/-- Consistency of the memo store: every size recorded in the size map is
the pure size of its key (for any coherent parent of the key's node). -/
def SizeInvM (env : Env) (rootNode : Node) (rootParent : JsVal) (m : List (MapKey × Nat)) : Prop :=
  ∀ u q v, smGet m (getMapKey u q) = some v →
    ∀ p, KeyParent env rootNode rootParent u p → v = pureSize env u q p

/-- Relation between the states before and after any piece of the
algorithm: the error code is either untouched or freshly set to the
early-termination code, and the number of `populateDataStructures` entries
taken equals the number of newly labeled (node, query) pairs plus the
number of new cache hits (stated additively). -/
def BasicEvolution (s s2 : Structures) : Prop :=
  (s2.errorCode = s.errorCode ∨
    (s.errorCode = none ∧ s2.errorCode = some "EARLY_TERMINATION_RESULT_SIZE_LIMIT_EXCEEDED")) ∧
  s2.populateCalls + labelCount s.labelMap + s.hits =
    s.populateCalls + labelCount s2.labelMap + s2.hits

/-- Sufficient condition for the early-termination controller never to fire
on a run whose global size counter stays at or below `g`: early termination
is off, or the threshold is disabled (zero), or `g` does not exceed the
threshold. -/
def NoTrig (ctx : Ctx) (g : Nat) : Prop :=
  ctx.terminateEarly = false ∨ ctx.threshold = 0 ∨ g ≤ ctx.threshold

/- Concrete backend environments used to instantiate theorems with
hypotheses.  `envA` resolves the scalar fields `f`, `g` of the root type
`Query` to the number 7 and the string "hi"; `envB` resolves `f` to the
two-element array [1, 2]; no type declares an `ID` field. -/
def fdInt : FieldDef := { relatedType := "Int" }

def envA : Env :=
  { fields := fun ty f => if ty == "Query" && (f == "f" || f == "g") then some fdInt else none,
    resolve := fun _ f => if f == "f" then JsVal.num 7 else JsVal.str "hi",
    idField := fun _ => none }

def envB : Env :=
  { fields := fun ty f => if ty == "Query" && f == "f" then some fdInt else none,
    resolve := fun _ _ => JsVal.arr (JsList.cons (JsVal.num 1) (JsList.cons (JsVal.num 2) JsList.nil)),
    idField := fun _ => none }

def rootNodeA : Node := getRootNode "Query"

def rootParentA : JsVal := JsVal.num 0

def ctxOff : Ctx := { threshold := 0, terminateEarly := false }

/- Concrete queries used to instantiate theorems with hypotheses:
single scalar fields, a concatenation of two distinct scalar fields, and a
concatenation repeating the same scalar field twice. -/
def qF : Sels := Sels.cons (Selection.scalarField "f") Sels.nil

def qG : Sels := Sels.cons (Selection.scalarField "g") Sels.nil

def qFG : Sels := Sels.cons (Selection.scalarField "f") (Sels.cons (Selection.scalarField "g") Sels.nil)

def qFF : Sels := Sels.cons (Selection.scalarField "f") (Sels.cons (Selection.scalarField "f") Sels.nil)

/- Soundness and completeness of the structural equality tests: `beq`
agrees with propositional equality (they model `JSON.stringify` string
comparison, which is injective on the embedded values). -/
mutual

theorem jsVal_beq_iff : ∀ a b : JsVal, JsVal.beq a b = true ↔ a = b
  | .null, b => by cases b <;> simp [JsVal.beq]
  | .undef, b => by cases b <;> simp [JsVal.beq]
  | .num n, b => by cases b <;> simp [JsVal.beq]
  | .str s, b => by cases b <;> simp [JsVal.beq]
  | .arr xs, b => by
    cases b <;> simp [JsVal.beq]
    exact jsList_beq_iff xs _
  | .obj xs, b => by
    cases b <;> simp [JsVal.beq]
    exact jsFields_beq_iff xs _

theorem jsList_beq_iff : ∀ a b : JsList, JsList.beq a b = true ↔ a = b
  | .nil, b => by cases b <;> simp [JsList.beq]
  | .cons a as, b => by
    cases b with
    | nil => simp [JsList.beq]
    | cons c cs => simp [JsList.beq, jsVal_beq_iff a c, jsList_beq_iff as cs]

theorem jsFields_beq_iff : ∀ a b : JsFields, JsFields.beq a b = true ↔ a = b
  | .nil, b => by cases b <;> simp [JsFields.beq]
  | .cons n a as, b => by
    cases b with
    | nil => simp [JsFields.beq]
    | cons m c cs =>
      simp [JsFields.beq, jsVal_beq_iff a c, jsFields_beq_iff as cs, and_assoc]

end

mutual

theorem selection_beq_iff : ∀ a b : Selection, Selection.beq a b = true ↔ a = b
  | .scalarField n, b => by cases b <;> simp [Selection.beq]
  | .objField n ns, b => by
    cases b with
    | scalarField m => simp [Selection.beq]
    | objField m ms => simp [Selection.beq, sels_beq_iff ns ms]
    | inlineFrag m ms => simp [Selection.beq]
  | .inlineFrag n ns, b => by
    cases b with
    | scalarField m => simp [Selection.beq]
    | objField m ms => simp [Selection.beq]
    | inlineFrag m ms => simp [Selection.beq, sels_beq_iff ns ms]

theorem sels_beq_iff : ∀ a b : Sels, Sels.beq a b = true ↔ a = b
  | .nil, b => by cases b <;> simp [Sels.beq]
  | .cons a as, b => by
    cases b with
    | nil => simp [Sels.beq]
    | cons c cs => simp [Sels.beq, selection_beq_iff a c, sels_beq_iff as cs]

end

theorem node_beq_iff (a b : Node) : Node.beq a b = true ↔ a = b := by
  cases a with
  | mk ida ta =>
    cases b with
    | mk idb tb => simp [Node.beq, jsVal_beq_iff ida idb, Node.mk.injEq]

theorem mapKey_beq_iff (a b : MapKey) : MapKey.beq a b = true ↔ a = b := by
  obtain ⟨ua, qa⟩ := a
  obtain ⟨ub, qb⟩ := b
  simp [MapKey.beq, node_beq_iff ua ub, sels_beq_iff qa qb, Prod.ext_iff]

theorem MapKey.beq_refl (a : MapKey) : MapKey.beq a a = true :=
  (mapKey_beq_iff a a).mpr rfl

theorem smGet_smSet (m : List (MapKey × Nat)) (k k2 : MapKey) (v : Nat) :
    smGet (smSet m k v) k2 = if MapKey.beq k k2 then some v else smGet m k2 := rfl

theorem smGet_smSet_self (m : List (MapKey × Nat)) (k : MapKey) (v : Nat) :
    smGet (smSet m k v) k = some v := by
  simp [smGet_smSet, MapKey.beq_refl]

theorem labelCount_mark (m : List (Node × List Sels)) (u : Node) (q : Sels) :
    labelCount (markQueryAsConsideredForNode m u q) = labelCount m + 1 := by
  induction m with
  | nil => simp [markQueryAsConsideredForNode, labelCount]
  | cons p rest ih =>
    obtain ⟨u0, qs⟩ := p
    simp only [markQueryAsConsideredForNode]
    split
    · simp [labelCount]
      omega
    · simp only [labelCount, List.map, List.sum_cons] at ih ⊢
      omega

theorem checkTermination_some (ctx : Ctx) (s : Structures) (c : String)
    (h : s.errorCode = some c) : checkTermination ctx s = (true, s) := by
  simp [checkTermination, h]

theorem checkTermination_none_cases (ctx : Ctx) (s : Structures)
    (h : s.errorCode = none) :
    checkTermination ctx s = (false, s) ∨
      (checkTermination ctx s =
        (true, { s with errorCode := some "EARLY_TERMINATION_RESULT_SIZE_LIMIT_EXCEEDED" }) ∧
        ctx.terminateEarly = true ∧ ctx.threshold ≠ 0 ∧ ctx.threshold < s.globalSize) := by
  simp only [checkTermination, h]
  split
  · rename_i hcond
    simp only [Bool.and_eq_true, decide_eq_true_eq, bne_iff_ne] at hcond
    right
    exact ⟨rfl, hcond.1.1, hcond.1.2, hcond.2⟩
  · left
    rfl

theorem checkTermination_noTrig (ctx : Ctx) (s : Structures) (g : Nat)
    (h : s.errorCode = none) (hg : s.globalSize ≤ g) (hnt : NoTrig ctx g) :
    checkTermination ctx s = (false, s) := by
  rcases checkTermination_none_cases ctx s h with hc | ⟨_, hte, hth, hlt⟩
  · exact hc
  · rcases hnt with h1 | h2 | h3
    · rw [hte] at h1
      cases h1
    · exact absurd h2 hth
    · omega

theorem resolveField_some_ec (env : Env) (ctx : Ctx) (parent : JsVal) (f : String)
    (s : Structures) (c : String) (h : s.errorCode = some c) :
    resolveField env ctx parent f s = (JsVal.null, s) := by
  simp [resolveField, checkTermination_some ctx s c h]

theorem resolveField_live (env : Env) (ctx : Ctx) (parent : JsVal) (f : String)
    (s : Structures) (h : checkTermination ctx s = (false, s)) :
    resolveField env ctx parent f s =
      (env.resolve parent f, { s with resolverCalls := s.resolverCalls + 1 }) := by
  simp [resolveField, h]

theorem updateDataStructuresForScalarFieldValue_spec (s : Structures) (key : MapKey)
    (result : JsVal) (fieldName : String) :
    updateDataStructuresForScalarFieldValue s key result fieldName =
      (scalarResultSize result,
       { s with globalSize := s.globalSize + scalarResultSize result,
                resultMap := rmPush (rmPush s.resultMap key (RElem.lit ("\"" ++ fieldName ++ "\":")))
                  key (scalarValueToken result fieldName) }) := rfl

theorem basicEvolution_refl (s : Structures) : BasicEvolution s s := by
  simp [BasicEvolution]

theorem basicEvolution_trans {s1 s2 s3 : Structures}
    (h1 : BasicEvolution s1 s2) (h2 : BasicEvolution s2 s3) : BasicEvolution s1 s3 := by
  obtain ⟨e1, a1⟩ := h1
  obtain ⟨e2, a2⟩ := h2
  constructor
  · rcases e1 with e1 | ⟨n1, x1⟩
    · rcases e2 with e2 | ⟨n2, x2⟩
      · left
        rw [e2, e1]
      · rw [e1] at n2
        right
        exact ⟨n2, x2⟩
    · rcases e2 with e2 | ⟨n2, x2⟩
      · right
        exact ⟨n1, e2.trans x1⟩
      · rw [x1] at n2
        cases n2
  · omega

theorem populate_hit_some (env : Env) (ctx : Ctx) (fuel : Nat) (u : Node) (uType : String)
    (query : Sels) (parent : JsVal) (s : Structures) (size : Nat)
    (h : queryAlreadyConsideredForNode s.labelMap u query = true)
    (hs : smGet s.sizeMap (getMapKey u query) = some size) :
    populateDataStructures env ctx (fuel + 1) u uType query parent s =
      .ok (size,
        { s with
            populateCalls := s.populateCalls + 1
            hits := s.hits + 1
            globalSize := s.globalSize + size }) := by
  simp only [populateDataStructures]
  simp [h, hs]

theorem populate_hit_none (env : Env) (ctx : Ctx) (fuel : Nat) (u : Node) (uType : String)
    (query : Sels) (parent : JsVal) (s : Structures)
    (h : queryAlreadyConsideredForNode s.labelMap u query = true)
    (hs : smGet s.sizeMap (getMapKey u query) = none) :
    populateDataStructures env ctx (fuel + 1) u uType query parent s =
      .error "PENDING_PROMISE" := by
  simp only [populateDataStructures]
  simp [h, hs]

theorem populate_fresh_nil (env : Env) (ctx : Ctx) (fuel : Nat) (u : Node) (uType : String)
    (parent : JsVal) (s : Structures)
    (h : queryAlreadyConsideredForNode s.labelMap u Sels.nil = false) :
    populateDataStructures env ctx (fuel + 1) u uType Sels.nil parent s =
      .error "TypeError: query[0] is undefined" := by
  simp only [populateDataStructures]
  simp [h]

theorem populate_fresh_frag_nomatch (env : Env) (ctx : Ctx) (fuel : Nat) (u : Node)
    (uType onType : String) (sels : Sels) (parent : JsVal) (s : Structures)
    (h : queryAlreadyConsideredForNode s.labelMap u (Sels.cons (Selection.inlineFrag onType sels) Sels.nil) = false)
    (hm : (u.table == onType) = false) :
    populateDataStructures env ctx (fuel + 1) u uType (Sels.cons (Selection.inlineFrag onType sels) Sels.nil) parent s =
      .ok (0,
        { s with
            populateCalls := s.populateCalls + 1
            labelMap := markQueryAsConsideredForNode s.labelMap u (Sels.cons (Selection.inlineFrag onType sels) Sels.nil)
            resultMap := initializeDataStructures s.resultMap (getMapKey u (Sels.cons (Selection.inlineFrag onType sels) Sels.nil))
            sizeMap := smSet s.sizeMap (getMapKey u (Sels.cons (Selection.inlineFrag onType sels) Sels.nil)) 0 }) := by
  simp only [populateDataStructures]
  simp [h, nodeType, hm]

theorem populate_fresh_frag_match (env : Env) (ctx : Ctx) (fuel : Nat) (u : Node)
    (uType onType : String) (sels : Sels) (parent : JsVal) (s : Structures)
    (h : queryAlreadyConsideredForNode s.labelMap u (Sels.cons (Selection.inlineFrag onType sels) Sels.nil) = false)
    (hm : (u.table == onType) = true) :
    populateDataStructures env ctx (fuel + 1) u uType (Sels.cons (Selection.inlineFrag onType sels) Sels.nil) parent s =
      .error "ReferenceError: fieldInfo is not defined" := by
  simp only [populateDataStructures]
  simp [h, nodeType, hm]

theorem populate_fresh_scalar (env : Env) (ctx : Ctx) (fuel : Nat) (u : Node)
    (uType fieldName : String) (fd : FieldDef) (parent : JsVal) (s : Structures)
    (h : queryAlreadyConsideredForNode s.labelMap u (Sels.cons (Selection.scalarField fieldName) Sels.nil) = false)
    (hfd : env.fields uType fieldName = some fd) :
    populateDataStructures env ctx (fuel + 1) u uType (Sels.cons (Selection.scalarField fieldName) Sels.nil) parent s =
      (let key := getMapKey u (Sels.cons (Selection.scalarField fieldName) Sels.nil)
       let s2 :=
        { s with
            populateCalls := s.populateCalls + 1
            labelMap := markQueryAsConsideredForNode s.labelMap u (Sels.cons (Selection.scalarField fieldName) Sels.nil)
            resultMap := initializeDataStructures s.resultMap key }
       let p := resolveField env ctx parent fieldName s2
       let q := updateDataStructuresForScalarFieldValue p.2 key p.1 fieldName
       .ok (q.1, { q.2 with sizeMap := smSet q.2.sizeMap key q.1 })) := by
  simp only [populateDataStructures]
  simp [h, hfd]

theorem populate_fresh_scalar_nofd (env : Env) (ctx : Ctx) (fuel : Nat) (u : Node)
    (uType fieldName : String) (parent : JsVal) (s : Structures)
    (h : queryAlreadyConsideredForNode s.labelMap u (Sels.cons (Selection.scalarField fieldName) Sels.nil) = false)
    (hfd : env.fields uType fieldName = none) :
    populateDataStructures env ctx (fuel + 1) u uType (Sels.cons (Selection.scalarField fieldName) Sels.nil) parent s =
      .error "TypeError: fieldDef is undefined" := by
  simp only [populateDataStructures]
  simp [h, hfd]

theorem populate_fresh_concat (env : Env) (ctx : Ctx) (fuel : Nat) (u : Node)
    (uType : String) (a b : Selection) (rest : Sels) (parent : JsVal) (s : Structures)
    (h : queryAlreadyConsideredForNode s.labelMap u (Sels.cons a (Sels.cons b rest)) = false) :
    populateDataStructures env ctx (fuel + 1) u uType (Sels.cons a (Sels.cons b rest)) parent s =
      (let q2 := Sels.cons a (Sels.cons b rest)
       let key := getMapKey u q2
       let s3 :=
        { s with
            populateCalls := s.populateCalls + 1
            labelMap := markQueryAsConsideredForNode s.labelMap u q2
            resultMap := initializeDataStructures s.resultMap key
            globalSize := s.globalSize + (q2.length - 1) }
       match goSubqueries ctx (fun q1 st => populateDataStructures env ctx fuel u uType q1 parent st) u key q2 0 s3 with
       | .error e => .error e
       | .ok (szs, s4) =>
         .ok ((szs.length - 1) + szs.sum,
           { s4 with sizeMap := smSet s4.sizeMap key ((szs.length - 1) + szs.sum) })) := by
  simp only [populateDataStructures]
  simp [h]

theorem populate_fresh_obj_fired (env : Env) (ctx : Ctx) (fuel : Nat) (u : Node)
    (uType fieldName : String) (sels : Sels) (parent : JsVal) (s : Structures)
    (h : queryAlreadyConsideredForNode s.labelMap u (Sels.cons (Selection.objField fieldName sels) Sels.nil) = false)
    (hterm : (checkTermination ctx
      { s with
          populateCalls := s.populateCalls + 1
          labelMap := markQueryAsConsideredForNode s.labelMap u (Sels.cons (Selection.objField fieldName sels) Sels.nil)
          resultMap := initializeDataStructures s.resultMap (getMapKey u (Sels.cons (Selection.objField fieldName sels) Sels.nil))
          globalSize := s.globalSize + 2 }).1 = true) :
    populateDataStructures env ctx (fuel + 1) u uType (Sels.cons (Selection.objField fieldName sels) Sels.nil) parent s =
      (let st := (checkTermination ctx
        { s with
            populateCalls := s.populateCalls + 1
            labelMap := markQueryAsConsideredForNode s.labelMap u (Sels.cons (Selection.objField fieldName sels) Sels.nil)
            resultMap := initializeDataStructures s.resultMap (getMapKey u (Sels.cons (Selection.objField fieldName sels) Sels.nil))
            globalSize := s.globalSize + 2 }).2
       .ok (0, { st with sizeMap := smSet st.sizeMap (getMapKey u (Sels.cons (Selection.objField fieldName sels) Sels.nil)) 0 })) := by
  simp only [populateDataStructures]
  simp [h, hterm]

theorem populate_fresh_obj_nofd (env : Env) (ctx : Ctx) (fuel : Nat) (u : Node)
    (uType fieldName : String) (sels : Sels) (parent : JsVal) (s : Structures)
    (h : queryAlreadyConsideredForNode s.labelMap u (Sels.cons (Selection.objField fieldName sels) Sels.nil) = false)
    (hterm : (checkTermination ctx
      { s with
          populateCalls := s.populateCalls + 1
          labelMap := markQueryAsConsideredForNode s.labelMap u (Sels.cons (Selection.objField fieldName sels) Sels.nil)
          resultMap := initializeDataStructures s.resultMap (getMapKey u (Sels.cons (Selection.objField fieldName sels) Sels.nil))
          globalSize := s.globalSize + 2 }).1 = false)
    (hfd : env.fields uType fieldName = none) :
    populateDataStructures env ctx (fuel + 1) u uType (Sels.cons (Selection.objField fieldName sels) Sels.nil) parent s =
      .error "TypeError: fieldDef is undefined" := by
  simp only [populateDataStructures]
  simp [h, hterm, hfd]

theorem populate_fresh_obj_live (env : Env) (ctx : Ctx) (fuel : Nat) (u : Node)
    (uType fieldName : String) (sels : Sels) (fd : FieldDef) (parent : JsVal) (s : Structures)
    (hterm : checkTermination ctx
      { s with
          populateCalls := s.populateCalls + 1
          labelMap := markQueryAsConsideredForNode s.labelMap u (Sels.cons (Selection.objField fieldName sels) Sels.nil)
          resultMap := initializeDataStructures s.resultMap (getMapKey u (Sels.cons (Selection.objField fieldName sels) Sels.nil))
          globalSize := s.globalSize + 2 } =
      (false,
       { s with
           populateCalls := s.populateCalls + 1
           labelMap := markQueryAsConsideredForNode s.labelMap u (Sels.cons (Selection.objField fieldName sels) Sels.nil)
           resultMap := initializeDataStructures s.resultMap (getMapKey u (Sels.cons (Selection.objField fieldName sels) Sels.nil))
           globalSize := s.globalSize + 2 }))
    (h : queryAlreadyConsideredForNode s.labelMap u (Sels.cons (Selection.objField fieldName sels) Sels.nil) = false)
    (hfd : env.fields uType fieldName = some fd) :
    populateDataStructures env ctx (fuel + 1) u uType (Sels.cons (Selection.objField fieldName sels) Sels.nil) parent s =
      (let key := getMapKey u (Sels.cons (Selection.objField fieldName sels) Sels.nil)
       let s3 :=
        { s with
            populateCalls := s.populateCalls + 1
            labelMap := markQueryAsConsideredForNode s.labelMap u (Sels.cons (Selection.objField fieldName sels) Sels.nil)
            resultMap := initializeDataStructures s.resultMap key
            globalSize := s.globalSize + 2 }
       let s4 :=
        { s3 with
            resolverCalls := s3.resolverCalls + 1
            resultMap := rmPush s3.resultMap key (RElem.lit ("\"" ++ fieldName ++ "\":")) }
       match env.resolve parent fieldName with
       | .null =>
         .ok (1 + 2,
           { s4 with
               globalSize := s4.globalSize + 1
               resultMap := rmPush s4.resultMap key (RElem.lit "null")
               sizeMap := smSet s4.sizeMap key (1 + 2) })
       | .undef =>
         .ok (1 + 2,
           { s4 with
               globalSize := s4.globalSize + 1
               resultMap := rmPush s4.resultMap key (RElem.lit "null")
               sizeMap := smSet s4.sizeMap key (1 + 2) })
       | .arr items =>
         match goItems env ctx fd sels key
             (fun nd it st => populateDataStructures env ctx fuel nd fd.relatedType sels it st)
             items.toList 0
             { s4 with
                 globalSize := s4.globalSize + ((2 + items.length) - 1)
                 resultMap := rmPush s4.resultMap key (RElem.lit "[") } with
         | .error e => .error e
         | .ok (iszs, s7) =>
           .ok ((((2 + iszs.length) - 1) + iszs.sum) + 2,
             { s7 with
                 resultMap := rmPush s7.resultMap key (RElem.lit "]")
                 sizeMap := smSet s7.sizeMap key ((((2 + iszs.length) - 1) + iszs.sum) + 2) })
       | r =>
         match updateDataStructuresForObjectFieldResultItem env fd sels key
             (fun nd it st => populateDataStructures env ctx fuel nd fd.relatedType sels it st) r s4 with
         | .error e => .error e
         | .ok (isz, s5) =>
           .ok (isz + 2, { s5 with sizeMap := smSet s5.sizeMap key (isz + 2) })) := by
  simp only [populateDataStructures]
  simp [h, hterm, hfd, resolveField]

theorem basicEvolution_same {s s2 : Structures} (he : s2.errorCode = s.errorCode)
    (hp : s2.populateCalls = s.populateCalls) (hl : s2.labelMap = s.labelMap)
    (hh : s2.hits = s.hits) : BasicEvolution s s2 := by
  simp [BasicEvolution, he, hp, hl, hh]

theorem checkTermination_basic (ctx : Ctx) (s : Structures) :
    BasicEvolution s (checkTermination ctx s).2 := by
  cases hec : s.errorCode with
  | some c =>
    rw [checkTermination_some ctx s c hec]
    exact basicEvolution_refl s
  | none =>
    rcases checkTermination_none_cases ctx s hec with hc | ⟨hc, _⟩
    · rw [hc]
      exact basicEvolution_refl s
    · rw [hc]
      exact ⟨Or.inr ⟨hec, rfl⟩, by simp⟩

theorem checkTermination_false_eq (ctx : Ctx) (s : Structures)
    (h : (checkTermination ctx s).1 = false) : checkTermination ctx s = (false, s) := by
  cases hec : s.errorCode with
  | some c => rw [checkTermination_some ctx s c hec] at h; cases h
  | none =>
    rcases checkTermination_none_cases ctx s hec with hc | ⟨hc, _⟩
    · exact hc
    · rw [hc] at h; cases h

theorem updateItem_basic (env : Env) (fd : FieldDef) (sels : Sels) (key : MapKey)
    (rec : Node → JsVal → Structures → Except String (Nat × Structures))
    (hrec : ∀ nd it st sz st', rec nd it st = .ok (sz, st') → BasicEvolution st st')
    (item : JsVal) (s : Structures) (sz : Nat) (s2 : Structures)
    (h : updateDataStructuresForObjectFieldResultItem env fd sels key rec item s = .ok (sz, s2)) :
    BasicEvolution s s2 := by
  simp only [updateDataStructuresForObjectFieldResultItem] at h
  cases hr : rec (createNode env item fd) item
      { s with
          globalSize := s.globalSize + 2
          resultMap := rmPush (rmPush (rmPush s.resultMap key (RElem.lit "\x7b")) key
            (RElem.ref (getMapKey (createNode env item fd) sels))) key (RElem.lit "\x7d") } with
  | error e =>
    rw [hr] at h
    cases h
  | ok r =>
    obtain ⟨rsz, rs⟩ := r
    rw [hr] at h
    injection h with h1
    injection h1 with hsz hst
    subst hst
    refine basicEvolution_trans ?_ (hrec _ _ _ _ _ hr)
    exact basicEvolution_same rfl rfl rfl rfl

theorem goItems_basic (env : Env) (ctx : Ctx) (fd : FieldDef) (sels : Sels) (key : MapKey)
    (rec : Node → JsVal → Structures → Except String (Nat × Structures))
    (hrec : ∀ nd it st sz st', rec nd it st = .ok (sz, st') → BasicEvolution st st') :
    ∀ (items : List JsVal) (idx : Nat) (s : Structures) (szs : List Nat) (s2 : Structures),
      goItems env ctx fd sels key rec items idx s = .ok (szs, s2) → BasicEvolution s s2 := by
  intro items
  induction items with
  | nil =>
    intro idx s szs s2 h
    simp only [goItems] at h
    injection h with h1
    cases h1
    exact basicEvolution_refl s
  | cons item rest ih =>
    intro idx s szs s2 h
    simp only [goItems] at h
    cases hcc : checkTermination ctx s with
    | mk b st =>
      rw [hcc] at h
      cases b with
      | true =>
        simp only [if_pos] at h
        cases hgo : goItems env ctx fd sels key rec rest (idx + 1) st with
        | error e =>
          rw [hgo] at h
          cases h
        | ok r =>
          obtain ⟨szs3, s3⟩ := r
          rw [hgo] at h
          injection h with h1
          cases h1
          have h2 : BasicEvolution s st := by
            have := checkTermination_basic ctx s
            rw [hcc] at this
            exact this
          exact basicEvolution_trans h2 (ih _ _ _ _ hgo)
      | false =>
        have heq : checkTermination ctx s = (false, s) :=
          checkTermination_false_eq ctx s (by rw [hcc])
        rw [heq] at hcc
        injection hcc with _ hst
        subst hst
        simp only [Bool.false_eq_true, if_false] at h
        cases hidx : idx != 0 with
        | true =>
          rw [hidx] at h
          simp only [if_pos] at h
          cases hui : updateDataStructuresForObjectFieldResultItem env fd sels key rec item
              { s with resultMap := rmPush s.resultMap key (RElem.lit ",") } with
          | error e =>
            rw [hui] at h
            cases h
          | ok r =>
            obtain ⟨isz, s3⟩ := r
            rw [hui] at h
            dsimp only at h
            cases hgo : goItems env ctx fd sels key rec rest (idx + 1) s3 with
            | error e =>
              rw [hgo] at h
              cases h
            | ok r2 =>
              obtain ⟨szs4, s4⟩ := r2
              rw [hgo] at h
              injection h with h1
              cases h1
              have e1 : BasicEvolution s { s with resultMap := rmPush s.resultMap key (RElem.lit ",") } :=
                basicEvolution_same rfl rfl rfl rfl
              have e2 := updateItem_basic env fd sels key rec hrec item _ _ _ hui
              exact basicEvolution_trans e1 (basicEvolution_trans e2 (ih _ _ _ _ hgo))
        | false =>
          rw [hidx] at h
          simp only [Bool.false_eq_true, if_false] at h
          cases hui : updateDataStructuresForObjectFieldResultItem env fd sels key rec item s with
          | error e =>
            rw [hui] at h
            cases h
          | ok r =>
            obtain ⟨isz, s3⟩ := r
            rw [hui] at h
            dsimp only at h
            cases hgo : goItems env ctx fd sels key rec rest (idx + 1) s3 with
            | error e =>
              rw [hgo] at h
              cases h
            | ok r2 =>
              obtain ⟨szs4, s4⟩ := r2
              rw [hgo] at h
              injection h with h1
              cases h1
              exact basicEvolution_trans (updateItem_basic env fd sels key rec hrec item _ _ _ hui) (ih _ _ _ _ hgo)

theorem goSubqueries_basic (ctx : Ctx) (u : Node) (key : MapKey)
    (rec : Sels → Structures → Except String (Nat × Structures))
    (hrec : ∀ q1 st sz st', rec q1 st = .ok (sz, st') → BasicEvolution st st') :
    ∀ (subs : Sels) (idx : Nat) (s : Structures) (szs : List Nat) (s2 : Structures),
      goSubqueries ctx rec u key subs idx s = .ok (szs, s2) → BasicEvolution s s2
  | .nil, idx, s, szs, s2, h => by
    simp only [goSubqueries] at h
    injection h with h1
    cases h1
    exact basicEvolution_refl s
  | .cons sub rest, idx, s, szs, s2, h => by
    have ih := goSubqueries_basic ctx u key rec hrec rest
    simp only [goSubqueries] at h
    cases hcc : checkTermination ctx s with
    | mk b st =>
      rw [hcc] at h
      cases b with
      | true =>
        simp only [if_pos] at h
        cases hgo : goSubqueries ctx rec u key rest (idx + 1) st with
        | error e =>
          rw [hgo] at h
          cases h
        | ok r =>
          obtain ⟨szs3, s3⟩ := r
          rw [hgo] at h
          injection h with h1
          cases h1
          have h2 : BasicEvolution s st := by
            have := checkTermination_basic ctx s
            rw [hcc] at this
            exact this
          exact basicEvolution_trans h2 (ih _ _ _ _ hgo)
      | false =>
        have heq : checkTermination ctx s = (false, s) :=
          checkTermination_false_eq ctx s (by rw [hcc])
        rw [heq] at hcc
        injection hcc with _ hst
        subst hst
        simp only [Bool.false_eq_true, if_false] at h
        cases hidx : idx != 0 with
        | true =>
          rw [hidx] at h
          simp only [if_pos] at h
          cases hr : rec (Sels.cons sub Sels.nil)
              { s with resultMap := rmPush (rmPush s.resultMap key (RElem.lit ",")) key (RElem.ref (getMapKey u (Sels.cons sub Sels.nil))) } with
          | error e =>
            rw [hr] at h
            cases h
          | ok r =>
            obtain ⟨sz3, s3⟩ := r
            rw [hr] at h
            dsimp only at h
            cases hgo : goSubqueries ctx rec u key rest (idx + 1) s3 with
            | error e =>
              rw [hgo] at h
              cases h
            | ok r2 =>
              obtain ⟨szs4, s4⟩ := r2
              rw [hgo] at h
              injection h with h1
              cases h1
              have e1 : BasicEvolution s
                  { s with resultMap := rmPush (rmPush s.resultMap key (RElem.lit ",")) key (RElem.ref (getMapKey u (Sels.cons sub Sels.nil))) } :=
                basicEvolution_same rfl rfl rfl rfl
              exact basicEvolution_trans e1 (basicEvolution_trans (hrec _ _ _ _ hr) (ih _ _ _ _ hgo))
        | false =>
          rw [hidx] at h
          simp only [Bool.false_eq_true, if_false] at h
          cases hr : rec (Sels.cons sub Sels.nil)
              { s with resultMap := rmPush s.resultMap key (RElem.ref (getMapKey u (Sels.cons sub Sels.nil))) } with
          | error e =>
            rw [hr] at h
            cases h
          | ok r =>
            obtain ⟨sz3, s3⟩ := r
            rw [hr] at h
            dsimp only at h
            cases hgo : goSubqueries ctx rec u key rest (idx + 1) s3 with
            | error e =>
              rw [hgo] at h
              cases h
            | ok r2 =>
              obtain ⟨szs4, s4⟩ := r2
              rw [hgo] at h
              injection h with h1
              cases h1
              have e1 : BasicEvolution s
                  { s with resultMap := rmPush s.resultMap key (RElem.ref (getMapKey u (Sels.cons sub Sels.nil))) } :=
                basicEvolution_same rfl rfl rfl rfl
              exact basicEvolution_trans e1 (basicEvolution_trans (hrec _ _ _ _ hr) (ih _ _ _ _ hgo))

theorem populate_basic (env : Env) (ctx : Ctx) :
    ∀ (fuel : Nat) (u : Node) (uType : String) (q : Sels) (parent : JsVal)
      (s : Structures) (sz : Nat) (s2 : Structures),
      populateDataStructures env ctx fuel u uType q parent s = .ok (sz, s2) →
      BasicEvolution s s2
  | 0, u, uType, q, parent, s, sz, s2, h => by
    simp only [populateDataStructures] at h
    exact Except.noConfusion h
  | fuel + 1, u, uType, q, parent, s, sz, s2, h => by
    have IH : ∀ u1 uT1 q1 p1 st sz1 st',
        populateDataStructures env ctx fuel u1 uT1 q1 p1 st = .ok (sz1, st') →
        BasicEvolution st st' :=
      fun u1 uT1 q1 p1 st sz1 st' hh => populate_basic env ctx fuel u1 uT1 q1 p1 st sz1 st' hh
    cases hq : queryAlreadyConsideredForNode s.labelMap u q with
    | true =>
      cases hsz : smGet s.sizeMap (getMapKey u q) with
      | some size =>
        rw [populate_hit_some env ctx fuel u uType q parent s size hq hsz] at h
        injection h with h1
        cases h1
        exact ⟨Or.inl rfl, by simp; omega⟩
      | none =>
        rw [populate_hit_none env ctx fuel u uType q parent s hq hsz] at h
        cases h
    | false =>
      cases q with
      | nil =>
        rw [populate_fresh_nil env ctx fuel u uType parent s hq] at h
        cases h
      | cons a rest =>
        cases rest with
        | cons b rest2 =>
          rw [populate_fresh_concat env ctx fuel u uType a b rest2 parent s hq] at h
          dsimp only at h
          split at h
          · cases h
          · rename_i szs s4 heq
            injection h with h1
            cases h1
            have e1 : BasicEvolution s
                { s with
                    populateCalls := s.populateCalls + 1
                    labelMap := markQueryAsConsideredForNode s.labelMap u (Sels.cons a (Sels.cons b rest2))
                    resultMap := initializeDataStructures s.resultMap (getMapKey u (Sels.cons a (Sels.cons b rest2)))
                    globalSize := s.globalSize + ((Sels.cons a (Sels.cons b rest2)).length - 1) } :=
              ⟨Or.inl rfl, by simp [labelCount_mark]; omega⟩
            have e2 := goSubqueries_basic ctx u (getMapKey u (Sels.cons a (Sels.cons b rest2)))
              (fun q1 st => populateDataStructures env ctx fuel u uType q1 parent st)
              (fun q1 st sz1 st' hh => IH u uType q1 parent st sz1 st' hh)
              (Sels.cons a (Sels.cons b rest2)) 0 _ szs s4 heq
            have e3 : BasicEvolution s4 { s4 with sizeMap := smSet s4.sizeMap (getMapKey u (Sels.cons a (Sels.cons b rest2))) ((szs.length - 1) + szs.sum) } :=
              basicEvolution_same rfl rfl rfl rfl
            exact basicEvolution_trans e1 (basicEvolution_trans e2 e3)
        | nil =>
          cases a with
          | scalarField fieldName =>
            cases hfd : env.fields uType fieldName with
            | none =>
              rw [populate_fresh_scalar_nofd env ctx fuel u uType fieldName parent s hq hfd] at h
              cases h
            | some fd =>
              rw [populate_fresh_scalar env ctx fuel u uType fieldName fd parent s hq hfd] at h
              dsimp only at h
              rw [updateDataStructuresForScalarFieldValue_spec] at h
              injection h with h1
              cases h1
              have e1 : BasicEvolution s
                  { s with
                      populateCalls := s.populateCalls + 1
                      labelMap := markQueryAsConsideredForNode s.labelMap u (Sels.cons (Selection.scalarField fieldName) Sels.nil)
                      resultMap := initializeDataStructures s.resultMap (getMapKey u (Sels.cons (Selection.scalarField fieldName) Sels.nil)) } :=
                ⟨Or.inl rfl, by simp [labelCount_mark]; omega⟩
              refine basicEvolution_trans e1 ?_
              simp only [resolveField]
              split
              · rename_i hcc
                have hb := checkTermination_basic ctx
                  { s with
                      populateCalls := s.populateCalls + 1
                      labelMap := markQueryAsConsideredForNode s.labelMap u (Sels.cons (Selection.scalarField fieldName) Sels.nil)
                      resultMap := initializeDataStructures s.resultMap (getMapKey u (Sels.cons (Selection.scalarField fieldName) Sels.nil)) }
                refine basicEvolution_trans hb ?_
                exact basicEvolution_same rfl rfl rfl rfl
              · rename_i hcc
                have hb := checkTermination_basic ctx
                  { s with
                      populateCalls := s.populateCalls + 1
                      labelMap := markQueryAsConsideredForNode s.labelMap u (Sels.cons (Selection.scalarField fieldName) Sels.nil)
                      resultMap := initializeDataStructures s.resultMap (getMapKey u (Sels.cons (Selection.scalarField fieldName) Sels.nil)) }
                refine basicEvolution_trans hb ?_
                exact basicEvolution_same rfl rfl rfl rfl
          | inlineFrag onType sels =>
            cases hm : u.table == onType with
            | true =>
              rw [populate_fresh_frag_match env ctx fuel u uType onType sels parent s hq hm] at h
              cases h
            | false =>
              rw [populate_fresh_frag_nomatch env ctx fuel u uType onType sels parent s hq hm] at h
              injection h with h1
              cases h1
              exact ⟨Or.inl rfl, by simp [labelCount_mark]; omega⟩
          | objField fieldName sels =>
            simp only [populateDataStructures] at h
            rw [hq] at h
            simp only [Bool.false_eq_true, if_false] at h
            split at h
            · rename_i hcc
              injection h with h1
              cases h1
              have e1 : BasicEvolution s
                  { s with
                      populateCalls := s.populateCalls + 1
                      labelMap := markQueryAsConsideredForNode s.labelMap u (Sels.cons (Selection.objField fieldName sels) Sels.nil)
                      resultMap := initializeDataStructures s.resultMap (getMapKey u (Sels.cons (Selection.objField fieldName sels) Sels.nil))
                      globalSize := s.globalSize + 2 } :=
                ⟨Or.inl rfl, by simp [labelCount_mark]; omega⟩
              refine basicEvolution_trans e1 ?_
              refine basicEvolution_trans (checkTermination_basic ctx _) ?_
              exact basicEvolution_same rfl rfl rfl rfl
            · rename_i hcc
              split at h
              · cases h
              · rename_i fd hfd
                have hfalse := checkTermination_false_eq ctx _ (by simpa using hcc)
                simp only [resolveField, hfalse, Bool.false_eq_true, if_false] at h
                try dsimp only at h
                have e1 : BasicEvolution s
                    { s with
                        populateCalls := s.populateCalls + 1
                        labelMap := markQueryAsConsideredForNode s.labelMap u (Sels.cons (Selection.objField fieldName sels) Sels.nil)
                        resultMap := initializeDataStructures s.resultMap (getMapKey u (Sels.cons (Selection.objField fieldName sels) Sels.nil))
                        globalSize := s.globalSize + 2 } :=
                  ⟨Or.inl rfl, by simp [labelCount_mark]; omega⟩
                refine basicEvolution_trans e1 ?_
                split at h
                · injection h with h1
                  cases h1
                  exact basicEvolution_same rfl rfl rfl rfl
                · injection h with h1
                  cases h1
                  exact basicEvolution_same rfl rfl rfl rfl
                · rename_i items hres
                  split at h
                  · cases h
                  · rename_i iszs s7 hgo
                    injection h with h1
                    cases h1
                    have e2 := goItems_basic env ctx fd sels _
                      (fun nd it st => populateDataStructures env ctx fuel nd fd.relatedType sels it st)
                      (fun nd it st sz1 st' hh => IH nd fd.relatedType sels it st sz1 st' hh)
                      items.toList 0 _ iszs s7 hgo
                    refine basicEvolution_trans (basicEvolution_same rfl rfl rfl rfl) (basicEvolution_trans e2 ?_)
                    exact basicEvolution_same rfl rfl rfl rfl
                · split at h
                  · cases h
                  · rename_i isz s5 hui
                    injection h with h1
                    cases h1
                    have e2 := updateItem_basic env fd sels _
                      (fun nd it st => populateDataStructures env ctx fuel nd fd.relatedType sels it st)
                      (fun nd it st sz1 st' hh => IH nd fd.relatedType sels it st sz1 st' hh)
                      _ _ _ _ hui
                    refine basicEvolution_trans (basicEvolution_same rfl rfl rfl rfl) (basicEvolution_trans e2 ?_)
                    exact basicEvolution_same rfl rfl rfl rfl

theorem checkTermination_quiet (ctx : Ctx) (s : Structures)
    (hq : ctx.terminateEarly = false ∨ ctx.threshold = 0) (hec : s.errorCode = none) :
    checkTermination ctx s = (false, s) := by
  rcases hq with hq | hq
  · exact checkTermination_noTrig ctx s s.globalSize hec le_rfl (Or.inl hq)
  · exact checkTermination_noTrig ctx s s.globalSize hec le_rfl (Or.inr (Or.inl hq))

theorem updateItem_quiet (env : Env) (fd : FieldDef) (sels : Sels) (key : MapKey)
    (rec : Node → JsVal → Structures → Except String (Nat × Structures))
    (hrec : ∀ nd it st sz st', rec nd it st = .ok (sz, st') → st.errorCode = none → st'.errorCode = none)
    (item : JsVal) (s : Structures) (sz : Nat) (s2 : Structures)
    (h : updateDataStructuresForObjectFieldResultItem env fd sels key rec item s = .ok (sz, s2))
    (hec : s.errorCode = none) : s2.errorCode = none := by
  simp only [updateDataStructuresForObjectFieldResultItem] at h
  cases hr : rec (createNode env item fd) item
      { s with
          globalSize := s.globalSize + 2
          resultMap := rmPush (rmPush (rmPush s.resultMap key (RElem.lit "\x7b")) key
            (RElem.ref (getMapKey (createNode env item fd) sels))) key (RElem.lit "\x7d") } with
  | error e =>
    rw [hr] at h
    cases h
  | ok r =>
    obtain ⟨rsz, rs⟩ := r
    rw [hr] at h
    injection h with h1
    injection h1 with hsz hst
    subst hst
    exact hrec _ _ _ _ _ hr hec

theorem goItems_quiet (env : Env) (ctx : Ctx) (fd : FieldDef) (sels : Sels) (key : MapKey)
    (rec : Node → JsVal → Structures → Except String (Nat × Structures))
    (hq : ctx.terminateEarly = false ∨ ctx.threshold = 0)
    (hrec : ∀ nd it st sz st', rec nd it st = .ok (sz, st') → st.errorCode = none → st'.errorCode = none) :
    ∀ (items : List JsVal) (idx : Nat) (s : Structures) (szs : List Nat) (s2 : Structures),
      goItems env ctx fd sels key rec items idx s = .ok (szs, s2) →
      s.errorCode = none → s2.errorCode = none := by
  intro items
  induction items with
  | nil =>
    intro idx s szs s2 h hec
    simp only [goItems] at h
    injection h with h1
    cases h1
    exact hec
  | cons item rest ih =>
    intro idx s szs s2 h hec
    simp only [goItems] at h
    rw [checkTermination_quiet ctx s hq hec] at h
    dsimp only at h
    simp only [Bool.false_eq_true, if_false] at h
    cases hidx : idx != 0 with
    | true =>
      rw [hidx] at h
      simp only [if_pos] at h
      split at h
      · cases h
      · rename_i isz s3 hui
        split at h
        · cases h
        · rename_i szs4 s4 hgo
          injection h with h1
          cases h1
          have h3 : s3.errorCode = none :=
            updateItem_quiet env fd sels key rec hrec item _ _ _ hui (by simpa using hec)
          exact ih _ _ _ _ hgo h3
    | false =>
      rw [hidx] at h
      simp only [Bool.false_eq_true, if_false] at h
      split at h
      · cases h
      · rename_i isz s3 hui
        split at h
        · cases h
        · rename_i szs4 s4 hgo
          injection h with h1
          cases h1
          have h3 : s3.errorCode = none :=
            updateItem_quiet env fd sels key rec hrec item _ _ _ hui hec
          exact ih _ _ _ _ hgo h3

theorem goSubqueries_quiet (ctx : Ctx) (u : Node) (key : MapKey)
    (rec : Sels → Structures → Except String (Nat × Structures))
    (hq : ctx.terminateEarly = false ∨ ctx.threshold = 0)
    (hrec : ∀ q1 st sz st', rec q1 st = .ok (sz, st') → st.errorCode = none → st'.errorCode = none) :
    ∀ (subs : Sels) (idx : Nat) (s : Structures) (szs : List Nat) (s2 : Structures),
      goSubqueries ctx rec u key subs idx s = .ok (szs, s2) →
      s.errorCode = none → s2.errorCode = none
  | .nil, idx, s, szs, s2, h, hec => by
    simp only [goSubqueries] at h
    injection h with h1
    cases h1
    exact hec
  | .cons sub rest, idx, s, szs, s2, h, hec => by
    have ih := goSubqueries_quiet ctx u key rec hq hrec rest
    simp only [goSubqueries] at h
    rw [checkTermination_quiet ctx s hq hec] at h
    dsimp only at h
    simp only [Bool.false_eq_true, if_false] at h
    cases hidx : idx != 0 with
    | true =>
      rw [hidx] at h
      simp only [if_pos] at h
      split at h
      · cases h
      · rename_i sz3 s3 hr
        split at h
        · cases h
        · rename_i szs4 s4 hgo
          injection h with h1
          cases h1
          have h3 : s3.errorCode = none := hrec _ _ _ _ hr (by simpa using hec)
          exact ih _ _ _ _ hgo h3
    | false =>
      rw [hidx] at h
      simp only [Bool.false_eq_true, if_false] at h
      split at h
      · cases h
      · rename_i sz3 s3 hr
        split at h
        · cases h
        · rename_i szs4 s4 hgo
          injection h with h1
          cases h1
          have h3 : s3.errorCode = none := hrec _ _ _ _ hr (by simpa using hec)
          exact ih _ _ _ _ hgo h3

theorem populate_quiet (env : Env) (ctx : Ctx)
    (hq : ctx.terminateEarly = false ∨ ctx.threshold = 0) :
    ∀ (fuel : Nat) (u : Node) (uType : String) (q : Sels) (parent : JsVal)
      (s : Structures) (sz : Nat) (s2 : Structures),
      populateDataStructures env ctx fuel u uType q parent s = .ok (sz, s2) →
      s.errorCode = none → s2.errorCode = none
  | 0, u, uType, q, parent, s, sz, s2, h, hec => by
    simp only [populateDataStructures] at h
    exact Except.noConfusion h
  | fuel + 1, u, uType, q, parent, s, sz, s2, h, hec => by
    have IH : ∀ u1 uT1 q1 p1 st sz1 st',
        populateDataStructures env ctx fuel u1 uT1 q1 p1 st = .ok (sz1, st') →
        st.errorCode = none → st'.errorCode = none :=
      fun u1 uT1 q1 p1 st sz1 st' hh => populate_quiet env ctx hq fuel u1 uT1 q1 p1 st sz1 st' hh
    cases hqc : queryAlreadyConsideredForNode s.labelMap u q with
    | true =>
      cases hsz : smGet s.sizeMap (getMapKey u q) with
      | some size =>
        rw [populate_hit_some env ctx fuel u uType q parent s size hqc hsz] at h
        injection h with h1
        cases h1
        exact hec
      | none =>
        rw [populate_hit_none env ctx fuel u uType q parent s hqc hsz] at h
        cases h
    | false =>
      cases q with
      | nil =>
        rw [populate_fresh_nil env ctx fuel u uType parent s hqc] at h
        cases h
      | cons a rest =>
        cases rest with
        | cons b rest2 =>
          rw [populate_fresh_concat env ctx fuel u uType a b rest2 parent s hqc] at h
          dsimp only at h
          split at h
          · cases h
          · rename_i szs s4 heq
            injection h with h1
            cases h1
            exact goSubqueries_quiet ctx u (getMapKey u (Sels.cons a (Sels.cons b rest2)))
              (fun q1 st => populateDataStructures env ctx fuel u uType q1 parent st) hq
              (fun q1 st sz1 st' hh => IH u uType q1 parent st sz1 st' hh)
              (Sels.cons a (Sels.cons b rest2)) 0 _ szs s4 heq hec
        | nil =>
          cases a with
          | scalarField fieldName =>
            cases hfd : env.fields uType fieldName with
            | none =>
              rw [populate_fresh_scalar_nofd env ctx fuel u uType fieldName parent s hqc hfd] at h
              cases h
            | some fd =>
              rw [populate_fresh_scalar env ctx fuel u uType fieldName fd parent s hqc hfd] at h
              dsimp only at h
              rw [updateDataStructuresForScalarFieldValue_spec] at h
              rw [show resolveField env ctx parent fieldName
                  { s with
                      populateCalls := s.populateCalls + 1
                      labelMap := markQueryAsConsideredForNode s.labelMap u (Sels.cons (Selection.scalarField fieldName) Sels.nil)
                      resultMap := initializeDataStructures s.resultMap (getMapKey u (Sels.cons (Selection.scalarField fieldName) Sels.nil)) } =
                  (env.resolve parent fieldName,
                   { s with
                       populateCalls := s.populateCalls + 1
                       labelMap := markQueryAsConsideredForNode s.labelMap u (Sels.cons (Selection.scalarField fieldName) Sels.nil)
                       resultMap := initializeDataStructures s.resultMap (getMapKey u (Sels.cons (Selection.scalarField fieldName) Sels.nil))
                       resolverCalls := s.resolverCalls + 1 })
                from resolveField_live env ctx parent fieldName _ (checkTermination_quiet ctx _ hq (by simpa using hec))] at h
              injection h with h1
              cases h1
              exact hec
          | inlineFrag onType sels =>
            cases hm : u.table == onType with
            | true =>
              rw [populate_fresh_frag_match env ctx fuel u uType onType sels parent s hqc hm] at h
              cases h
            | false =>
              rw [populate_fresh_frag_nomatch env ctx fuel u uType onType sels parent s hqc hm] at h
              injection h with h1
              cases h1
              exact hec
          | objField fieldName sels =>
            have hterm := checkTermination_quiet ctx
              { s with
                  populateCalls := s.populateCalls + 1
                  labelMap := markQueryAsConsideredForNode s.labelMap u (Sels.cons (Selection.objField fieldName sels) Sels.nil)
                  resultMap := initializeDataStructures s.resultMap (getMapKey u (Sels.cons (Selection.objField fieldName sels) Sels.nil))
                  globalSize := s.globalSize + 2 } hq (by simpa using hec)
            cases hfd : env.fields uType fieldName with
            | none =>
              rw [populate_fresh_obj_nofd env ctx fuel u uType fieldName sels parent s hqc (by rw [hterm]) hfd] at h
              cases h
            | some fd =>
              rw [populate_fresh_obj_live env ctx fuel u uType fieldName sels fd parent s hterm hqc hfd] at h
              dsimp only at h
              split at h
              · injection h with h1
                cases h1
                exact hec
              · injection h with h1
                cases h1
                exact hec
              · rename_i items hres
                split at h
                · cases h
                · rename_i iszs s7 hgo
                  injection h with h1
                  cases h1
                  have h7 := goItems_quiet env ctx fd sels _
                    (fun nd it st => populateDataStructures env ctx fuel nd fd.relatedType sels it st) hq
                    (fun nd it st sz1 st' hh => IH nd fd.relatedType sels it st sz1 st' hh)
                    items.toList 0 _ iszs s7 hgo (by simpa using hec)
                  simpa using h7
              · split at h
                · cases h
                · rename_i isz s5 hui
                  injection h with h1
                  cases h1
                  have h5 := updateItem_quiet env fd sels _
                    (fun nd it st => populateDataStructures env ctx fuel nd fd.relatedType sels it st)
                    (fun nd it st sz1 st' hh => IH nd fd.relatedType sels it st sz1 st' hh)
                    _ _ _ _ hui (by simpa using hec)
                  simpa using h5

theorem pureSize_nil (env : Env) (u : Node) (parent : JsVal) :
    pureSize env u Sels.nil parent = 0 := by
  simp [pureSize]

theorem pureSize_multi (env : Env) (u : Node) (a b : Selection) (rest : Sels) (parent : JsVal) :
    pureSize env u (Sels.cons a (Sels.cons b rest)) parent =
      pureSize env u (Sels.cons a Sels.nil) parent +
        (1 + pureSize env u (Sels.cons b rest) parent) := by
  rw [pureSize]

theorem pureSize_scalar (env : Env) (u : Node) (fieldName : String) (parent : JsVal)
    (fd : FieldDef) (hfd : env.fields u.table fieldName = some fd) :
    pureSize env u (Sels.cons (Selection.scalarField fieldName) Sels.nil) parent =
      scalarResultSize (env.resolve parent fieldName) := by
  rw [pureSize, hfd]

theorem pureSize_frag_nomatch (env : Env) (u : Node) (onType : String) (sels : Sels)
    (parent : JsVal) (hm : (u.table == onType) = false) :
    pureSize env u (Sels.cons (Selection.inlineFrag onType sels) Sels.nil) parent = 0 := by
  rw [pureSize, hm]
  simp

theorem pureSize_obj (env : Env) (u : Node) (fieldName : String) (sels : Sels)
    (parent : JsVal) (fd : FieldDef) (hfd : env.fields u.table fieldName = some fd) :
    pureSize env u (Sels.cons (Selection.objField fieldName sels) Sels.nil) parent =
      (match env.resolve parent fieldName with
       | .null => 1 + 2
       | .undef => 1 + 2
       | .arr items =>
         (((2 + items.length) - 1) +
           (items.toList.map (fun it => pureSize env (createNode env it fd) sels it + 2)).sum) + 2
       | r => (pureSize env (createNode env r fd) sels r + 2) + 2) := by
  rw [pureSize, hfd]

theorem pureSize_cons_sum (env : Env) (u : Node) (parent : JsVal) :
    ∀ (a : Selection) (rest : Sels),
      pureSize env u (Sels.cons a rest) parent =
        sumSingles env u parent (Sels.cons a rest) + ((Sels.cons a rest).length - 1)
  | a, .nil => by
    simp [sumSingles, Sels.length]
  | a, .cons b rest2 => by
    have ih := pureSize_cons_sum env u parent b rest2
    rw [pureSize_multi env u a b rest2 parent, ih]
    simp only [sumSingles, Sels.length]
    omega

theorem pureList_length (env : Env) (u : Node) (parent : JsVal) :
    ∀ subs : Sels, (pureList env u parent subs).length = subs.length
  | .nil => rfl
  | .cons a rest => by
    simp only [pureList, List.length_cons, Sels.length, pureList_length env u parent rest]
    omega

theorem pureList_sum (env : Env) (u : Node) (parent : JsVal) :
    ∀ subs : Sels, (pureList env u parent subs).sum = sumSingles env u parent subs
  | .nil => rfl
  | .cons a rest => by
    simp only [pureList, List.sum_cons, sumSingles, pureList_sum env u parent rest]

theorem noTrig_mono {ctx : Ctx} {g g2 : Nat} (h : NoTrig ctx g) (hle : g2 ≤ g) :
    NoTrig ctx g2 := by
  rcases h with h | h | h
  · exact Or.inl h
  · exact Or.inr (Or.inl h)
  · exact Or.inr (Or.inr (le_trans hle h))

theorem sizeInvM_insert (env : Env) (rootNode : Node) (rootParent : JsVal)
    (m : List (MapKey × Nat)) (u : Node) (q : Sels) (v : Nat)
    (hm : SizeInvM env rootNode rootParent m)
    (hv : ∀ p, KeyParent env rootNode rootParent u p → v = pureSize env u q p) :
    SizeInvM env rootNode rootParent (smSet m (getMapKey u q) v) := by
  intro u2 q2 v2 hlook p hp
  rw [smGet_smSet] at hlook
  split at hlook
  · rename_i hbeq
    have heq := (mapKey_beq_iff (getMapKey u q) (getMapKey u2 q2)).mp hbeq
    injection heq with hu hq2
    subst hu
    subst hq2
    injection hlook with hv2
    subst hv2
    exact hv p hp
  · exact hm u2 q2 v2 hlook p hp

theorem updateItem_main (env : Env) (ctx : Ctx) (rootNode : Node) (rootParent : JsVal)
    (fd : FieldDef) (sels : Sels) (key : MapKey)
    (rec : Node → JsVal → Structures → Except String (Nat × Structures))
    (hrec : ∀ nd it st sz1 st', rec nd it st = .ok (sz1, st') → nd = createNode env it fd →
      SizeInvM env rootNode rootParent st.sizeMap → st.errorCode = none →
      ((NoTrig ctx (st.globalSize + pureSize env nd sels it) → st'.errorCode = none) ∧
       (st'.errorCode = none → sz1 = pureSize env nd sels it ∧
         st'.globalSize = st.globalSize + pureSize env nd sels it ∧
         SizeInvM env rootNode rootParent st'.sizeMap)))
    (item : JsVal) (s : Structures) (sz : Nat) (s2 : Structures)
    (h : updateDataStructuresForObjectFieldResultItem env fd sels key rec item s = .ok (sz, s2))
    (hinv : SizeInvM env rootNode rootParent s.sizeMap) (hec : s.errorCode = none) :
    ((NoTrig ctx (s.globalSize + (pureSize env (createNode env item fd) sels item + 2)) →
        s2.errorCode = none) ∧
     (s2.errorCode = none →
       sz = pureSize env (createNode env item fd) sels item + 2 ∧
       s2.globalSize = s.globalSize + (pureSize env (createNode env item fd) sels item + 2) ∧
       SizeInvM env rootNode rootParent s2.sizeMap)) := by
  simp only [updateDataStructuresForObjectFieldResultItem] at h
  cases hr : rec (createNode env item fd) item
      { s with
          globalSize := s.globalSize + 2
          resultMap := rmPush (rmPush (rmPush s.resultMap key (RElem.lit "\x7b")) key
            (RElem.ref (getMapKey (createNode env item fd) sels))) key (RElem.lit "\x7d") } with
  | error e =>
    rw [hr] at h
    cases h
  | ok r =>
    obtain ⟨rsz, rs⟩ := r
    rw [hr] at h
    injection h with h1
    injection h1 with hsz hst
    subst hst
    subst hsz
    have hpair := hrec _ _ _ _ _ hr rfl (by simpa using hinv) (by simpa using hec)
    obtain ⟨A0, B0⟩ := hpair
    constructor
    · intro hnt
      apply A0
      refine noTrig_mono hnt (le_of_eq ?_)
      simp
      omega
    · intro hec2
      obtain ⟨hsz0, hgs0, hinv0⟩ := B0 hec2
      refine ⟨by omega, ?_, hinv0⟩
      rw [hgs0]
      simp
      omega

theorem goItems_main (env : Env) (ctx : Ctx) (rootNode : Node) (rootParent : JsVal)
    (fd : FieldDef) (sels : Sels) (key : MapKey)
    (rec : Node → JsVal → Structures → Except String (Nat × Structures))
    (hrecB : ∀ nd it st sz1 st', rec nd it st = .ok (sz1, st') → BasicEvolution st st')
    (hrec : ∀ nd it st sz1 st', rec nd it st = .ok (sz1, st') → nd = createNode env it fd →
      SizeInvM env rootNode rootParent st.sizeMap → st.errorCode = none →
      ((NoTrig ctx (st.globalSize + pureSize env nd sels it) → st'.errorCode = none) ∧
       (st'.errorCode = none → sz1 = pureSize env nd sels it ∧
         st'.globalSize = st.globalSize + pureSize env nd sels it ∧
         SizeInvM env rootNode rootParent st'.sizeMap))) :
    ∀ (items : List JsVal) (idx : Nat) (s : Structures) (szs : List Nat) (s2 : Structures),
      goItems env ctx fd sels key rec items idx s = .ok (szs, s2) →
      SizeInvM env rootNode rootParent s.sizeMap → s.errorCode = none →
      ((NoTrig ctx (s.globalSize + (pureItemSizes env fd sels items).sum) → s2.errorCode = none) ∧
       (s2.errorCode = none →
         szs = pureItemSizes env fd sels items ∧
         s2.globalSize = s.globalSize + (pureItemSizes env fd sels items).sum ∧
         SizeInvM env rootNode rootParent s2.sizeMap)) := by
  intro items
  induction items with
  | nil =>
    intro idx s szs s2 h hinv hec
    simp only [goItems] at h
    injection h with h1
    cases h1
    exact ⟨fun _ => hec, fun _ => ⟨rfl, by simp [pureItemSizes], hinv⟩⟩
  | cons item rest ih =>
    intro idx s szs s2 h hinv hec
    simp only [goItems] at h
    rcases checkTermination_none_cases ctx s hec with hcc | ⟨hcc, hte, hth, hlt⟩
    · rw [hcc] at h
      dsimp only at h
      simp only [Bool.false_eq_true, if_false] at h
      have main : ∀ (spre : Structures), spre.sizeMap = s.sizeMap → spre.errorCode = s.errorCode →
          spre.globalSize = s.globalSize → spre.resolverCalls = s.resolverCalls →
          ∀ (h2 : (match updateDataStructuresForObjectFieldResultItem env fd sels key rec item spre with
            | .error e => .error e
            | .ok (sz3, s3) =>
              match goItems env ctx fd sels key rec rest (idx + 1) s3 with
              | .error e => .error e
              | .ok (szs4, s4) => .ok (sz3 :: szs4, s4)) = Except.ok (szs, s2)),
          ((NoTrig ctx (s.globalSize + (pureItemSizes env fd sels (item :: rest)).sum) → s2.errorCode = none) ∧
           (s2.errorCode = none →
             szs = pureItemSizes env fd sels (item :: rest) ∧
             s2.globalSize = s.globalSize + (pureItemSizes env fd sels (item :: rest)).sum ∧
             SizeInvM env rootNode rootParent s2.sizeMap)) := by
        intro spre hsm hse hsg hsr h2
        cases hui : updateDataStructuresForObjectFieldResultItem env fd sels key rec item spre with
        | error e =>
          rw [hui] at h2
          cases h2
        | ok r =>
          obtain ⟨isz, s3⟩ := r
          rw [hui] at h2
          dsimp only at h2
          cases hgo : goItems env ctx fd sels key rec rest (idx + 1) s3 with
          | error e =>
            rw [hgo] at h2
            cases h2
          | ok r2 =>
            obtain ⟨szs4, s4⟩ := r2
            rw [hgo] at h2
            injection h2 with h3
            cases h3
            have hUI := updateItem_main env ctx rootNode rootParent fd sels key rec hrec item spre _ _ hui
              (by rw [hsm]; exact hinv) (by rw [hse]; exact hec)
            obtain ⟨A1, B1⟩ := hUI
            constructor
            · intro hnt
              have hA1 : s3.errorCode = none := by
                apply A1
                rw [hsg]
                refine noTrig_mono hnt ?_
                simp only [pureItemSizes, List.map_cons, List.sum_cons]
                omega
              obtain ⟨hsz1, hgs1, hinv1⟩ := B1 hA1
              have hIH := ih (idx + 1) s3 szs4 s2 hgo hinv1 hA1
              apply hIH.1
              rw [hgs1, hsg]
              refine noTrig_mono hnt (le_of_eq ?_)
              simp only [pureItemSizes, List.map_cons, List.sum_cons]
              omega
            · intro hec2
              have h3ec : s3.errorCode = none := by
                have hb := goItems_basic env ctx fd sels key rec hrecB rest (idx + 1) s3 szs4 s2 hgo
                rcases hb.1 with hbe | ⟨hbe, _⟩
                · rw [← hbe]; exact hec2
                · exact hbe
              obtain ⟨hsz1, hgs1, hinv1⟩ := B1 h3ec
              have hIH := ih (idx + 1) s3 szs4 s2 hgo hinv1 h3ec
              obtain ⟨hszs4, hgs4, hinv4⟩ := hIH.2 hec2
              refine ⟨?_, ?_, hinv4⟩
              · rw [hszs4, hsz1]
                simp only [pureItemSizes, List.map_cons]
              · rw [hgs4, hgs1, hsg]
                simp only [pureItemSizes, List.map_cons, List.sum_cons]
                omega
      cases hidx : idx != 0 with
      | true =>
        rw [hidx] at h
        simp only [if_pos] at h
        exact main { s with resultMap := rmPush s.resultMap key (RElem.lit ",") } rfl rfl rfl rfl h
      | false =>
        rw [hidx] at h
        simp only [Bool.false_eq_true, if_false] at h
        exact main s rfl rfl rfl rfl h
    · rw [hcc] at h
      dsimp only at h
      simp only [if_pos] at h
      cases hgo : goItems env ctx fd sels key rec rest (idx + 1)
          { s with errorCode := some "EARLY_TERMINATION_RESULT_SIZE_LIMIT_EXCEEDED" } with
      | error e =>
        rw [hgo] at h
        cases h
      | ok r =>
        obtain ⟨szs4, s4⟩ := r
        rw [hgo] at h
        injection h with h1
        cases h1
        constructor
        · intro hnt
          rcases hnt with hnt | hnt | hnt
          · rw [hte] at hnt
            cases hnt
          · exact absurd hnt hth
          · omega
        · intro hec2
          have hb := goItems_basic env ctx fd sels key rec hrecB rest (idx + 1) _ szs4 _ hgo
          rcases hb.1 with hbe | ⟨hbe, _⟩
          · simp [hec2] at hbe
          · simp at hbe

theorem goSubqueries_main (env : Env) (ctx : Ctx) (rootNode : Node) (rootParent : JsVal)
    (u : Node) (parent : JsVal) (key : MapKey)
    (rec : Sels → Structures → Except String (Nat × Structures))
    (hrecB : ∀ q1 st sz1 st', rec q1 st = .ok (sz1, st') → BasicEvolution st st')
    (hrec : ∀ q1 st sz1 st', rec q1 st = .ok (sz1, st') →
      SizeInvM env rootNode rootParent st.sizeMap → st.errorCode = none →
      ((NoTrig ctx (st.globalSize + pureSize env u q1 parent) → st'.errorCode = none) ∧
       (st'.errorCode = none → sz1 = pureSize env u q1 parent ∧
         st'.globalSize = st.globalSize + pureSize env u q1 parent ∧
         SizeInvM env rootNode rootParent st'.sizeMap))) :
    ∀ (subs : Sels) (idx : Nat) (s : Structures) (szs : List Nat) (s2 : Structures),
      goSubqueries ctx rec u key subs idx s = .ok (szs, s2) →
      SizeInvM env rootNode rootParent s.sizeMap → s.errorCode = none →
      ((NoTrig ctx (s.globalSize + sumSingles env u parent subs) → s2.errorCode = none) ∧
       (s2.errorCode = none →
         szs = pureList env u parent subs ∧
         s2.globalSize = s.globalSize + sumSingles env u parent subs ∧
         SizeInvM env rootNode rootParent s2.sizeMap))
  | .nil, idx, s, szs, s2, h, hinv, hec => by
    simp only [goSubqueries] at h
    injection h with h1
    cases h1
    exact ⟨fun _ => hec, fun _ => ⟨rfl, by simp [sumSingles], hinv⟩⟩
  | .cons sub rest, idx, s, szs, s2, h, hinv, hec => by
    have ih := goSubqueries_main env ctx rootNode rootParent u parent key rec hrecB hrec rest
    simp only [goSubqueries] at h
    rcases checkTermination_none_cases ctx s hec with hcc | ⟨hcc, hte, hth, hlt⟩
    · rw [hcc] at h
      dsimp only at h
      simp only [Bool.false_eq_true, if_false] at h
      have main : ∀ (spre : Structures), spre.sizeMap = s.sizeMap → spre.errorCode = s.errorCode →
          spre.globalSize = s.globalSize →
          (match rec (Sels.cons sub Sels.nil) spre with
            | .error e => .error e
            | .ok (sz3, s3) =>
              match goSubqueries ctx rec u key rest (idx + 1) s3 with
              | .error e => .error e
              | .ok (szs4, s4) => .ok (sz3 :: szs4, s4)) = Except.ok (szs, s2) →
          ((NoTrig ctx (s.globalSize + sumSingles env u parent (Sels.cons sub rest)) → s2.errorCode = none) ∧
           (s2.errorCode = none →
             szs = pureList env u parent (Sels.cons sub rest) ∧
             s2.globalSize = s.globalSize + sumSingles env u parent (Sels.cons sub rest) ∧
             SizeInvM env rootNode rootParent s2.sizeMap)) := by
        intro spre hsm hse hsg h2
        cases hr : rec (Sels.cons sub Sels.nil) spre with
        | error e =>
          rw [hr] at h2
          cases h2
        | ok r =>
          obtain ⟨sz3, s3⟩ := r
          rw [hr] at h2
          dsimp only at h2
          cases hgo : goSubqueries ctx rec u key rest (idx + 1) s3 with
          | error e =>
            rw [hgo] at h2
            cases h2
          | ok r2 =>
            obtain ⟨szs4, s4⟩ := r2
            rw [hgo] at h2
            injection h2 with h3
            cases h3
            have hR := hrec _ _ _ _ hr (by rw [hsm]; exact hinv) (by rw [hse]; exact hec)
            obtain ⟨A1, B1⟩ := hR
            constructor
            · intro hnt
              have hA1 : s3.errorCode = none := by
                apply A1
                rw [hsg]
                refine noTrig_mono hnt ?_
                simp only [sumSingles]
                omega
              obtain ⟨hsz1, hgs1, hinv1⟩ := B1 hA1
              have hIH := ih (idx + 1) s3 szs4 s2 hgo hinv1 hA1
              apply hIH.1
              rw [hgs1, hsg]
              refine noTrig_mono hnt (le_of_eq ?_)
              simp only [sumSingles]
              omega
            · intro hec2
              have h3ec : s3.errorCode = none := by
                have hb := goSubqueries_basic ctx u key rec hrecB rest (idx + 1) s3 szs4 s2 hgo
                rcases hb.1 with hbe | ⟨hbe, _⟩
                · rw [← hbe]; exact hec2
                · exact hbe
              obtain ⟨hsz1, hgs1, hinv1⟩ := B1 h3ec
              have hIH := ih (idx + 1) s3 szs4 s2 hgo hinv1 h3ec
              obtain ⟨hszs4, hgs4, hinv4⟩ := hIH.2 hec2
              refine ⟨?_, ?_, hinv4⟩
              · rw [hszs4, hsz1]
                simp only [pureList]
              · rw [hgs4, hgs1, hsg]
                simp only [sumSingles]
                omega
      cases hidx : idx != 0 with
      | true =>
        rw [hidx] at h
        simp only [if_pos] at h
        exact main { s with resultMap := rmPush (rmPush s.resultMap key (RElem.lit ",")) key (RElem.ref (getMapKey u (Sels.cons sub Sels.nil))) } rfl rfl rfl h
      | false =>
        rw [hidx] at h
        simp only [Bool.false_eq_true, if_false] at h
        exact main { s with resultMap := rmPush s.resultMap key (RElem.ref (getMapKey u (Sels.cons sub Sels.nil))) } rfl rfl rfl h
    · rw [hcc] at h
      dsimp only at h
      simp only [if_pos] at h
      cases hgo : goSubqueries ctx rec u key rest (idx + 1)
          { s with errorCode := some "EARLY_TERMINATION_RESULT_SIZE_LIMIT_EXCEEDED" } with
      | error e =>
        rw [hgo] at h
        cases h
      | ok r =>
        obtain ⟨szs4, s4⟩ := r
        rw [hgo] at h
        injection h with h1
        cases h1
        constructor
        · intro hnt
          rcases hnt with hnt | hnt | hnt
          · rw [hte] at hnt
            cases hnt
          · exact absurd hnt hth
          · omega
        · intro hec2
          have hb := goSubqueries_basic ctx u key rec hrecB rest (idx + 1) _ szs4 _ hgo
          rcases hb.1 with hbe | ⟨hbe, _⟩
          · simp [hec2] at hbe
          · simp at hbe

theorem createNode_table (env : Env) (item : JsVal) (fd : FieldDef) :
    (createNode env item fd).table = fd.relatedType := by
  simp only [createNode]
  split <;> rfl

theorem JsList.toList_length : ∀ items : JsList, items.toList.length = items.length
  | .nil => rfl
  | .cons hd tl => by
    simp only [JsList.toList, List.length_cons, JsList.length, JsList.toList_length tl]
    omega

theorem pureSize_obj_ge_two (env : Env) (u : Node) (fieldName : String) (sels : Sels)
    (parent : JsVal) :
    2 ≤ pureSize env u (Sels.cons (Selection.objField fieldName sels) Sels.nil) parent := by
  rw [pureSize]
  split
  · omega
  · split <;> omega

theorem populate_main (env : Env) (ctx : Ctx) (rootNode : Node) (rootParent : JsVal)
    (hkf : KeyParentFun env rootNode rootParent) :
    ∀ (fuel : Nat) (u : Node) (uType : String) (q : Sels) (parent : JsVal)
      (s : Structures) (sz : Nat) (s2 : Structures),
      populateDataStructures env ctx fuel u uType q parent s = .ok (sz, s2) →
      uType = u.table →
      KeyParent env rootNode rootParent u parent →
      SizeInvM env rootNode rootParent s.sizeMap →
      s.errorCode = none →
      ((NoTrig ctx (s.globalSize + pureSize env u q parent) → s2.errorCode = none) ∧
       (s2.errorCode = none →
         sz = pureSize env u q parent ∧
         s2.globalSize = s.globalSize + pureSize env u q parent ∧
         SizeInvM env rootNode rootParent s2.sizeMap))
  | 0, u, uType, q, parent, s, sz, s2, h, huT, hKP, hinv, hec => by
    simp only [populateDataStructures] at h
    exact Except.noConfusion h
  | fuel + 1, u, uType, q, parent, s, sz, s2, h, huT, hKP, hinv, hec => by
    have IH := populate_main env ctx rootNode rootParent hkf fuel
    have IHB := populate_basic env ctx fuel
    cases hqc : queryAlreadyConsideredForNode s.labelMap u q with
    | true =>
      cases hsz : smGet s.sizeMap (getMapKey u q) with
      | some size =>
        rw [populate_hit_some env ctx fuel u uType q parent s size hqc hsz] at h
        injection h with h1
        cases h1
        have hpure : sz = pureSize env u q parent := hinv u q sz hsz parent hKP
        refine ⟨fun _ => hec, fun _ => ⟨hpure, by simp [hpure], by simpa using hinv⟩⟩
      | none =>
        rw [populate_hit_none env ctx fuel u uType q parent s hqc hsz] at h
        cases h
    | false =>
      cases q with
      | nil =>
        rw [populate_fresh_nil env ctx fuel u uType parent s hqc] at h
        cases h
      | cons a rest =>
        cases rest with
        | cons b rest2 =>
          rw [populate_fresh_concat env ctx fuel u uType a b rest2 parent s hqc] at h
          dsimp only at h
          split at h
          · cases h
          · rename_i szs s4 heq
            injection h with h1
            cases h1
            have hM := goSubqueries_main env ctx rootNode rootParent u parent
              (getMapKey u (Sels.cons a (Sels.cons b rest2)))
              (fun q1 st => populateDataStructures env ctx fuel u uType q1 parent st)
              (fun q1 st sz1 st' hh => IHB u uType q1 parent st sz1 st' hh)
              (fun q1 st sz1 st' hh hi he => IH u uType q1 parent st sz1 st' hh huT hKP hi he)
              (Sels.cons a (Sels.cons b rest2)) 0 _ szs s4 heq (by simpa using hinv) (by simpa using hec)
            obtain ⟨A1, B1⟩ := hM
            have hlen := pureSize_cons_sum env u parent a (Sels.cons b rest2)
            constructor
            · intro hnt
              have h4 : s4.errorCode = none := by
                apply A1
                refine noTrig_mono hnt (le_of_eq ?_)
                simp only [hlen]
                try simp
                try omega
              simpa using h4
            · intro hec2
              have h4ec : s4.errorCode = none := by simpa using hec2
              obtain ⟨hszs, hgs4, hinv4⟩ := B1 h4ec
              have hszeq : (szs.length - 1) + szs.sum = pureSize env u (Sels.cons a (Sels.cons b rest2)) parent := by
                rw [hszs, pureList_length, pureList_sum, hlen]
                omega
              refine ⟨hszeq, ?_, ?_⟩
              · rw [show ∀ x : Structures, ({ x with sizeMap := smSet x.sizeMap (getMapKey u (Sels.cons a (Sels.cons b rest2))) ((szs.length - 1) + szs.sum) } : Structures).globalSize = x.globalSize from fun _ => rfl]
                rw [hgs4]
                simp only [hlen]
                try simp
                try omega
              · have hv : ∀ p, KeyParent env rootNode rootParent u p →
                    (szs.length - 1) + szs.sum = pureSize env u (Sels.cons a (Sels.cons b rest2)) p := by
                  intro p hp
                  rw [hkf u p parent hp hKP]
                  exact hszeq
                simpa using sizeInvM_insert env rootNode rootParent s4.sizeMap u
                  (Sels.cons a (Sels.cons b rest2)) ((szs.length - 1) + szs.sum) hinv4 hv
        | nil =>
          cases a with
          | scalarField fieldName =>
            cases hfd : env.fields uType fieldName with
            | none =>
              rw [populate_fresh_scalar_nofd env ctx fuel u uType fieldName parent s hqc hfd] at h
              cases h
            | some fd =>
              rw [populate_fresh_scalar env ctx fuel u uType fieldName fd parent s hqc hfd] at h
              dsimp only at h
              rw [updateDataStructuresForScalarFieldValue_spec] at h
              have hpure : pureSize env u (Sels.cons (Selection.scalarField fieldName) Sels.nil) parent =
                  scalarResultSize (env.resolve parent fieldName) :=
                pureSize_scalar env u fieldName parent fd (huT ▸ hfd)
              rcases checkTermination_none_cases ctx
                  { s with
                      populateCalls := s.populateCalls + 1
                      labelMap := markQueryAsConsideredForNode s.labelMap u (Sels.cons (Selection.scalarField fieldName) Sels.nil)
                      resultMap := initializeDataStructures s.resultMap (getMapKey u (Sels.cons (Selection.scalarField fieldName) Sels.nil)) }
                  (by simpa using hec) with hcc | ⟨hcc, hte, hth, hlt⟩
              · rw [resolveField_live env ctx parent fieldName _ hcc] at h
                dsimp only at h
                injection h with h1
                cases h1
                constructor
                · intro _
                  simpa using hec
                · intro _
                  refine ⟨hpure.symm, by rw [hpure], ?_⟩
                  have hv : ∀ p, KeyParent env rootNode rootParent u p →
                      scalarResultSize (env.resolve parent fieldName) =
                        pureSize env u (Sels.cons (Selection.scalarField fieldName) Sels.nil) p := by
                    intro p hp
                    rw [hkf u p parent hp hKP]
                    exact hpure.symm
                  simpa using sizeInvM_insert env rootNode rootParent _ u
                    (Sels.cons (Selection.scalarField fieldName) Sels.nil)
                    (scalarResultSize (env.resolve parent fieldName)) (by simpa using hinv) hv
              · simp only [resolveField, hcc] at h
                try dsimp only at h
                injection h with h1
                cases h1
                constructor
                · intro hnt
                  exfalso
                  simp only at hlt
                  rcases hnt with hnt | hnt | hnt
                  · rw [hte] at hnt
                    cases hnt
                  · exact absurd hnt hth
                  · omega
                · intro hec2
                  exfalso
                  simp at hec2
          | inlineFrag onType sels =>
            cases hm : u.table == onType with
            | true =>
              rw [populate_fresh_frag_match env ctx fuel u uType onType sels parent s hqc hm] at h
              cases h
            | false =>
              rw [populate_fresh_frag_nomatch env ctx fuel u uType onType sels parent s hqc hm] at h
              injection h with h1
              cases h1
              have hpure := pureSize_frag_nomatch env u onType sels parent hm
              constructor
              · intro _
                simpa using hec
              · intro _
                refine ⟨hpure.symm, by rw [hpure]; simp, ?_⟩
                have hv : ∀ p, KeyParent env rootNode rootParent u p →
                    0 = pureSize env u (Sels.cons (Selection.inlineFrag onType sels) Sels.nil) p :=
                  fun p _ => (pureSize_frag_nomatch env u onType sels p hm).symm
                simpa using sizeInvM_insert env rootNode rootParent _ u
                  (Sels.cons (Selection.inlineFrag onType sels) Sels.nil) 0 (by simpa using hinv) hv
          | objField fieldName sels =>
            rcases checkTermination_none_cases ctx
                { s with
                    populateCalls := s.populateCalls + 1
                    labelMap := markQueryAsConsideredForNode s.labelMap u (Sels.cons (Selection.objField fieldName sels) Sels.nil)
                    resultMap := initializeDataStructures s.resultMap (getMapKey u (Sels.cons (Selection.objField fieldName sels) Sels.nil))
                    globalSize := s.globalSize + 2 }
                (by simpa using hec) with hcc | ⟨hcc, hte, hth, hlt⟩
            · cases hfd : env.fields uType fieldName with
              | none =>
                rw [populate_fresh_obj_nofd env ctx fuel u uType fieldName sels parent s hqc (by rw [hcc]) hfd] at h
                cases h
              | some fd =>
                rw [populate_fresh_obj_live env ctx fuel u uType fieldName sels fd parent s hcc hqc hfd] at h
                dsimp only at h
                have hpureq := pureSize_obj env u fieldName sels parent fd (huT ▸ hfd)
                cases hres : env.resolve parent fieldName with
                | null =>
                  rw [hres] at h
                  dsimp only at h
                  injection h with h1
                  cases h1
                  have hp3 : pureSize env u (Sels.cons (Selection.objField fieldName sels) Sels.nil) parent = 1 + 2 := by
                    rw [hpureq, hres]
                  constructor
                  · intro _
                    simpa using hec
                  · intro _
                    refine ⟨hp3.symm, by rw [hp3], ?_⟩
                    have hv : ∀ p, KeyParent env rootNode rootParent u p →
                        1 + 2 = pureSize env u (Sels.cons (Selection.objField fieldName sels) Sels.nil) p := by
                      intro p hp
                      rw [hkf u p parent hp hKP]
                      exact hp3.symm
                    simpa using sizeInvM_insert env rootNode rootParent _ u
                      (Sels.cons (Selection.objField fieldName sels) Sels.nil) (1 + 2) (by simpa using hinv) hv
                | undef =>
                  rw [hres] at h
                  dsimp only at h
                  injection h with h1
                  cases h1
                  have hp3 : pureSize env u (Sels.cons (Selection.objField fieldName sels) Sels.nil) parent = 1 + 2 := by
                    rw [hpureq, hres]
                  constructor
                  · intro _
                    simpa using hec
                  · intro _
                    refine ⟨hp3.symm, by rw [hp3], ?_⟩
                    have hv : ∀ p, KeyParent env rootNode rootParent u p →
                        1 + 2 = pureSize env u (Sels.cons (Selection.objField fieldName sels) Sels.nil) p := by
                      intro p hp
                      rw [hkf u p parent hp hKP]
                      exact hp3.symm
                    simpa using sizeInvM_insert env rootNode rootParent _ u
                      (Sels.cons (Selection.objField fieldName sels) Sels.nil) (1 + 2) (by simpa using hinv) hv
                | arr items =>
                  rw [hres] at h
                  dsimp only at h
                  split at h
                  · cases h
                  · rename_i iszs s7 hgo2
                    injection h with h1
                    cases h1
                    have hp3 : pureSize env u (Sels.cons (Selection.objField fieldName sels) Sels.nil) parent =
                        (((2 + items.length) - 1) + (pureItemSizes env fd sels items.toList).sum) + 2 := by
                      rw [hpureq, hres]
                      simp only [pureItemSizes]
                    have hM := goItems_main env ctx rootNode rootParent fd sels
                      (getMapKey u (Sels.cons (Selection.objField fieldName sels) Sels.nil))
                      (fun nd it st => populateDataStructures env ctx fuel nd fd.relatedType sels it st)
                      (fun nd it st sz1 st' hh => IHB nd fd.relatedType sels it st sz1 st' hh)
                      (fun nd it st sz1 st' hh hnd hi he => IH nd fd.relatedType sels it st sz1 st' hh
                        (by rw [hnd, createNode_table]) (Or.inr ⟨fd, hnd⟩) hi he)
                      items.toList 0 _ iszs s7 hgo2 (by simpa using hinv) (by simpa using hec)
                    obtain ⟨A2, B2⟩ := hM
                    constructor
                    · intro hnt
                      have h7 : s7.errorCode = none := by
                        apply A2
                        refine noTrig_mono hnt (le_of_eq ?_)
                        simp only [hp3]
                        try simp
                        try omega
                      simpa using h7
                    · intro hec2
                      have h7ec : s7.errorCode = none := by simpa using hec2
                      obtain ⟨hiszs, hgs7, hinv7⟩ := B2 h7ec
                      have hleniszs : iszs.length = items.length := by
                        rw [hiszs]
                        simp [pureItemSizes, JsList.toList_length]
                      have hsziszs : iszs.sum = (pureItemSizes env fd sels items.toList).sum := by
                        rw [hiszs]
                      have hszeq : (((2 + iszs.length) - 1) + iszs.sum) + 2 =
                          pureSize env u (Sels.cons (Selection.objField fieldName sels) Sels.nil) parent := by
                        rw [hp3, hleniszs, hsziszs]
                      refine ⟨hszeq, ?_, ?_⟩
                      · rw [show ∀ x : Structures, ({ x with
                            resultMap := rmPush x.resultMap (getMapKey u (Sels.cons (Selection.objField fieldName sels) Sels.nil)) (RElem.lit "]")
                            sizeMap := smSet x.sizeMap (getMapKey u (Sels.cons (Selection.objField fieldName sels) Sels.nil)) ((((2 + iszs.length) - 1) + iszs.sum) + 2) } : Structures).globalSize = x.globalSize from fun _ => rfl]
                        rw [hgs7]
                        simp only [hp3]
                        try simp
                        try omega
                      · have hv : ∀ p, KeyParent env rootNode rootParent u p →
                            (((2 + iszs.length) - 1) + iszs.sum) + 2 =
                              pureSize env u (Sels.cons (Selection.objField fieldName sels) Sels.nil) p := by
                          intro p hp
                          rw [hkf u p parent hp hKP]
                          exact hszeq
                        simpa using sizeInvM_insert env rootNode rootParent s7.sizeMap u
                          (Sels.cons (Selection.objField fieldName sels) Sels.nil)
                          ((((2 + iszs.length) - 1) + iszs.sum) + 2) hinv7 hv
                | num nval =>
                  rw [hres] at h
                  dsimp only at h
                  split at h
                  · cases h
                  · rename_i isz s5 hui
                    injection h with h1
                    cases h1
                    have hp3 : pureSize env u (Sels.cons (Selection.objField fieldName sels) Sels.nil) parent =
                        (pureSize env (createNode env (JsVal.num nval) fd) sels (JsVal.num nval) + 2) + 2 := by
                      rw [hpureq, hres]
                    have hUM := updateItem_main env ctx rootNode rootParent fd sels
                      (getMapKey u (Sels.cons (Selection.objField fieldName sels) Sels.nil))
                      (fun nd it st => populateDataStructures env ctx fuel nd fd.relatedType sels it st)
                      (fun nd it st sz1 st' hh hnd hi he => IH nd fd.relatedType sels it st sz1 st' hh
                        (by rw [hnd, createNode_table]) (Or.inr ⟨fd, hnd⟩) hi he)
                      (JsVal.num nval) _ _ _ hui (by simpa using hinv) (by simpa using hec)
                    obtain ⟨A2, B2⟩ := hUM
                    constructor
                    · intro hnt
                      have h5 : s5.errorCode = none := by
                        apply A2
                        refine noTrig_mono hnt (le_of_eq ?_)
                        simp only [hp3]
                        try simp
                        try omega
                      simpa using h5
                    · intro hec2
                      have h5ec : s5.errorCode = none := by simpa using hec2
                      obtain ⟨hisz, hgs5, hinv5⟩ := B2 h5ec
                      have hszeq : isz + 2 = pureSize env u (Sels.cons (Selection.objField fieldName sels) Sels.nil) parent := by
                        rw [hp3, hisz]
                      refine ⟨hszeq, ?_, ?_⟩
                      · rw [show ∀ x : Structures, ({ x with
                            sizeMap := smSet x.sizeMap (getMapKey u (Sels.cons (Selection.objField fieldName sels) Sels.nil)) (isz + 2) } : Structures).globalSize = x.globalSize from fun _ => rfl]
                        rw [hgs5]
                        simp only [hp3]
                        try simp
                        try omega
                      · have hv : ∀ p, KeyParent env rootNode rootParent u p →
                            isz + 2 = pureSize env u (Sels.cons (Selection.objField fieldName sels) Sels.nil) p := by
                          intro p hp
                          rw [hkf u p parent hp hKP]
                          exact hszeq
                        simpa using sizeInvM_insert env rootNode rootParent s5.sizeMap u
                          (Sels.cons (Selection.objField fieldName sels) Sels.nil) (isz + 2) hinv5 hv
                | str sval =>
                  rw [hres] at h
                  dsimp only at h
                  split at h
                  · cases h
                  · rename_i isz s5 hui
                    injection h with h1
                    cases h1
                    have hp3 : pureSize env u (Sels.cons (Selection.objField fieldName sels) Sels.nil) parent =
                        (pureSize env (createNode env (JsVal.str sval) fd) sels (JsVal.str sval) + 2) + 2 := by
                      rw [hpureq, hres]
                    have hUM := updateItem_main env ctx rootNode rootParent fd sels
                      (getMapKey u (Sels.cons (Selection.objField fieldName sels) Sels.nil))
                      (fun nd it st => populateDataStructures env ctx fuel nd fd.relatedType sels it st)
                      (fun nd it st sz1 st' hh hnd hi he => IH nd fd.relatedType sels it st sz1 st' hh
                        (by rw [hnd, createNode_table]) (Or.inr ⟨fd, hnd⟩) hi he)
                      (JsVal.str sval) _ _ _ hui (by simpa using hinv) (by simpa using hec)
                    obtain ⟨A2, B2⟩ := hUM
                    constructor
                    · intro hnt
                      have h5 : s5.errorCode = none := by
                        apply A2
                        refine noTrig_mono hnt (le_of_eq ?_)
                        simp only [hp3]
                        try simp
                        try omega
                      simpa using h5
                    · intro hec2
                      have h5ec : s5.errorCode = none := by simpa using hec2
                      obtain ⟨hisz, hgs5, hinv5⟩ := B2 h5ec
                      have hszeq : isz + 2 = pureSize env u (Sels.cons (Selection.objField fieldName sels) Sels.nil) parent := by
                        rw [hp3, hisz]
                      refine ⟨hszeq, ?_, ?_⟩
                      · rw [show ∀ x : Structures, ({ x with
                            sizeMap := smSet x.sizeMap (getMapKey u (Sels.cons (Selection.objField fieldName sels) Sels.nil)) (isz + 2) } : Structures).globalSize = x.globalSize from fun _ => rfl]
                        rw [hgs5]
                        simp only [hp3]
                        try simp
                        try omega
                      · have hv : ∀ p, KeyParent env rootNode rootParent u p →
                            isz + 2 = pureSize env u (Sels.cons (Selection.objField fieldName sels) Sels.nil) p := by
                          intro p hp
                          rw [hkf u p parent hp hKP]
                          exact hszeq
                        simpa using sizeInvM_insert env rootNode rootParent s5.sizeMap u
                          (Sels.cons (Selection.objField fieldName sels) Sels.nil) (isz + 2) hinv5 hv
                | obj fs =>
                  rw [hres] at h
                  dsimp only at h
                  split at h
                  · cases h
                  · rename_i isz s5 hui
                    injection h with h1
                    cases h1
                    have hp3 : pureSize env u (Sels.cons (Selection.objField fieldName sels) Sels.nil) parent =
                        (pureSize env (createNode env (JsVal.obj fs) fd) sels (JsVal.obj fs) + 2) + 2 := by
                      rw [hpureq, hres]
                    have hUM := updateItem_main env ctx rootNode rootParent fd sels
                      (getMapKey u (Sels.cons (Selection.objField fieldName sels) Sels.nil))
                      (fun nd it st => populateDataStructures env ctx fuel nd fd.relatedType sels it st)
                      (fun nd it st sz1 st' hh hnd hi he => IH nd fd.relatedType sels it st sz1 st' hh
                        (by rw [hnd, createNode_table]) (Or.inr ⟨fd, hnd⟩) hi he)
                      (JsVal.obj fs) _ _ _ hui (by simpa using hinv) (by simpa using hec)
                    obtain ⟨A2, B2⟩ := hUM
                    constructor
                    · intro hnt
                      have h5 : s5.errorCode = none := by
                        apply A2
                        refine noTrig_mono hnt (le_of_eq ?_)
                        simp only [hp3]
                        try simp
                        try omega
                      simpa using h5
                    · intro hec2
                      have h5ec : s5.errorCode = none := by simpa using hec2
                      obtain ⟨hisz, hgs5, hinv5⟩ := B2 h5ec
                      have hszeq : isz + 2 = pureSize env u (Sels.cons (Selection.objField fieldName sels) Sels.nil) parent := by
                        rw [hp3, hisz]
                      refine ⟨hszeq, ?_, ?_⟩
                      · rw [show ∀ x : Structures, ({ x with
                            sizeMap := smSet x.sizeMap (getMapKey u (Sels.cons (Selection.objField fieldName sels) Sels.nil)) (isz + 2) } : Structures).globalSize = x.globalSize from fun _ => rfl]
                        rw [hgs5]
                        simp only [hp3]
                        try simp
                        try omega
                      · have hv : ∀ p, KeyParent env rootNode rootParent u p →
                            isz + 2 = pureSize env u (Sels.cons (Selection.objField fieldName sels) Sels.nil) p := by
                          intro p hp
                          rw [hkf u p parent hp hKP]
                          exact hszeq
                        simpa using sizeInvM_insert env rootNode rootParent s5.sizeMap u
                          (Sels.cons (Selection.objField fieldName sels) Sels.nil) (isz + 2) hinv5 hv
            · rw [populate_fresh_obj_fired env ctx fuel u uType fieldName sels parent s hqc (by rw [hcc])] at h
              dsimp only at h
              rw [hcc] at h
              dsimp only at h
              injection h with h1
              cases h1
              constructor
              · intro hnt
                exfalso
                have h2le := pureSize_obj_ge_two env u fieldName sels parent
                simp only at hlt
                rcases hnt with hnt | hnt | hnt
                · rw [hte] at hnt
                  cases hnt
                · exact absurd hnt hth
                · omega
              · intro hec2
                exfalso
                simp at hec2

theorem sizeInvM_initial (env : Env) (rootNode : Node) (rootParent : JsVal) :
    SizeInvM env rootNode rootParent initialStructures.sizeMap := by
  intro u q v hl
  simp [initialStructures, smGet] at hl

theorem keyParent_id (env : Env) (rootNode : Node) (rootParent : JsVal)
    (hid : ∀ t, env.idField t = none) (hroot : rootNode.id = rootParent) :
    ∀ u p, KeyParent env rootNode rootParent u p → u.id = p := by
  intro u p hp
  rcases hp with ⟨hu, hpp⟩ | ⟨fd, hu⟩
  · rw [hu, hroot, hpp]
  · rw [hu]
    simp [createNode, hid]

theorem keyParentFun_idField_none (env : Env) (rootNode : Node) (rootParent : JsVal)
    (hid : ∀ t, env.idField t = none) (hroot : rootNode.id = rootParent) :
    KeyParentFun env rootNode rootParent := by
  intro u p1 p2 h1 h2
  have e1 := keyParent_id env rootNode rootParent hid hroot u p1 h1
  have e2 := keyParent_id env rootNode rootParent hid hroot u p2 h2
  rw [← e1, ← e2]

theorem sumSingles_toList (env : Env) (u : Node) (parent : JsVal) :
    ∀ subs : Sels,
      sumSingles env u parent subs =
        (subs.toList.map (fun x => pureSize env u (Sels.cons x Sels.nil) parent)).sum
  | .nil => rfl
  | .cons a rest => by
    simp only [sumSingles, Sels.toList, List.map_cons, List.sum_cons,
      sumSingles_toList env u parent rest]

/-- C5: Scalar-field size accounting.  For a single field item with no
sub-selection, `updateDataStructuresForScalarFieldValue` records exactly 3
(quoted field name, separator, value) when the resolved value is not an
array, and `2 + 2 + (n - 1) + n` when it is an array of length n — which is
5 when n = 1 and 2n + 3 when n > 1 (and 4 when n = 0, the separator count
`n - 1` being zero then). -/
theorem claim_C5_scalar_size_accounting (s : Structures) (key : MapKey) (result : JsVal)
    (fieldName : String) :
    ((∀ xs : JsList, result ≠ JsVal.arr xs) →
      (updateDataStructuresForScalarFieldValue s key result fieldName).1 = 3) ∧
    (∀ xs : JsList, result = JsVal.arr xs →
      (updateDataStructuresForScalarFieldValue s key result fieldName).1 =
        2 + 2 + ((xs.length - 1) + xs.length)) := by
  constructor
  · intro hna
    rw [updateDataStructuresForScalarFieldValue_spec]
    cases result with
    | arr xs => exact absurd rfl (hna xs)
    | null => rfl
    | undef => rfl
    | num n => rfl
    | str t => rfl
    | obj fs => rfl
  · intro xs hxs
    subst hxs
    rw [updateDataStructuresForScalarFieldValue_spec]
    simp only [scalarResultSize]
    rcases hn : xs.length with _ | n
    · simp [hn]
    · rcases n with _ | m
      · simp [hn]
      · rw [if_neg (show ¬ ((m + 1 + 1 : Nat) == 1) = true by simp only [beq_iff_eq]; omega)]
        rw [if_pos (show 1 < m + 1 + 1 by omega)]
        omega

/-- C5 witness: a non-array value (the number 7) records size 3, and the
two-element array [1, 2] records size 2 + 2 + 1 + 2 = 7 = 2·2 + 3. -/
theorem claim_C5_scalar_size_accounting_witness :
    (updateDataStructuresForScalarFieldValue initialStructures (getMapKey rootNodeA qF)
      (JsVal.num 7) "f").1 = 3 ∧
    (updateDataStructuresForScalarFieldValue initialStructures (getMapKey rootNodeA qF)
      (JsVal.arr (JsList.cons (JsVal.num 1) (JsList.cons (JsVal.num 2) JsList.nil))) "f").1 =
      2 + 2 + ((JsList.length (JsList.cons (JsVal.num 1) (JsList.cons (JsVal.num 2) JsList.nil)) - 1) +
        JsList.length (JsList.cons (JsVal.num 1) (JsList.cons (JsVal.num 2) JsList.nil))) :=
  ⟨(claim_C5_scalar_size_accounting initialStructures (getMapKey rootNodeA qF) (JsVal.num 7) "f").1
      (fun _ h => JsVal.noConfusion h),
   (claim_C5_scalar_size_accounting initialStructures (getMapKey rootNodeA qF)
      (JsVal.arr (JsList.cons (JsVal.num 1) (JsList.cons (JsVal.num 2) JsList.nil))) "f").2
      (JsList.cons (JsVal.num 1) (JsList.cons (JsVal.num 2) JsList.nil)) rfl⟩

/-- C3 (code bug): on a query whose scalar field resolves to the array
[1, 2], the evaluation reaches `errorCode = OK` (the response is accepted
with result size 7), but materializing the result runs `produceResult` on
the stored array token, whose `element.length > 1` loop body ends in the
bare statement `q` (line 481 of calculate.js) — a variable that is defined
nowhere — so the materialization raises
`ReferenceError: q is not defined` instead of producing the round-trip
JSON text. -/
theorem claim_C3_round_trip_reference_error :
    queryCalculator envB ctxOff 5 5 rootNodeA "Query" qF rootParentA =
      .accepted 7 0 (Except.error "ReferenceError: q is not defined") := rfl

/-- C6 (code bug): for an inline fragment whose type condition matches the
node's reported type name, `updateDataStructuresForInlineFragment` evaluates
`fieldInfo.exeContext.schema.getType(onType)` (line 426 of calculate.js),
but `fieldInfo` is not defined anywhere in the module, so the matching
branch raises a `ReferenceError` instead of recursing into the fragment's
inner selection. -/
theorem claim_C6_matching_fragment_reference_error :
    populateDataStructures envA ctxOff 3 { id := JsVal.num 1, table := "T" } "T"
      (Sels.cons (Selection.inlineFrag "T" qF) Sels.nil) rootParentA initialStructures =
      .error "ReferenceError: fieldInfo is not defined" := rfl

/-- C7: Fragment gating.  For an inline fragment whose type condition does
not equal the node's reported type name, the computed size is 0, the
fragment's result entry stays empty (no tokens are pushed), and the ghost
resolver counter is unchanged — no resolver is invoked for anything inside
the fragment. -/
theorem claim_C7_fragment_gating (env : Env) (ctx : Ctx) (fuel : Nat) (u : Node)
    (uType onType : String) (sels : Sels) (parent : JsVal) (s : Structures)
    (hm : nodeType u ≠ onType)
    (hfresh : queryAlreadyConsideredForNode s.labelMap u (Sels.cons (Selection.inlineFrag onType sels) Sels.nil) = false)
    (hrm : rmGet s.resultMap (getMapKey u (Sels.cons (Selection.inlineFrag onType sels) Sels.nil)) = none) :
    populateDataStructures env ctx (fuel + 1) u uType (Sels.cons (Selection.inlineFrag onType sels) Sels.nil) parent s =
      .ok (0,
        { s with
            populateCalls := s.populateCalls + 1
            labelMap := markQueryAsConsideredForNode s.labelMap u (Sels.cons (Selection.inlineFrag onType sels) Sels.nil)
            resultMap := initializeDataStructures s.resultMap (getMapKey u (Sels.cons (Selection.inlineFrag onType sels) Sels.nil))
            sizeMap := smSet s.sizeMap (getMapKey u (Sels.cons (Selection.inlineFrag onType sels) Sels.nil)) 0 }) ∧
    ({ s with
        populateCalls := s.populateCalls + 1
        labelMap := markQueryAsConsideredForNode s.labelMap u (Sels.cons (Selection.inlineFrag onType sels) Sels.nil)
        resultMap := initializeDataStructures s.resultMap (getMapKey u (Sels.cons (Selection.inlineFrag onType sels) Sels.nil))
        sizeMap := smSet s.sizeMap (getMapKey u (Sels.cons (Selection.inlineFrag onType sels) Sels.nil)) 0 } : Structures).resolverCalls = s.resolverCalls ∧
    rmGet (initializeDataStructures s.resultMap (getMapKey u (Sels.cons (Selection.inlineFrag onType sels) Sels.nil)))
      (getMapKey u (Sels.cons (Selection.inlineFrag onType sels) Sels.nil)) = some [] := by
  have hmb : (u.table == onType) = false := by
    rw [beq_eq_false_iff_ne]
    exact hm
  refine ⟨populate_fresh_frag_nomatch env ctx fuel u uType onType sels parent s hfresh hmb, rfl, ?_⟩
  simp only [initializeDataStructures, hrm]
  simp [rmGet, MapKey.beq_refl]

/-- C7 witness: a fragment on type "U" at a node of type "T" computes size
0, pushes nothing, and performs no resolver calls. -/
theorem claim_C7_fragment_gating_witness :
    nodeType { id := JsVal.num 1, table := "T" } ≠ "U" ∧
    populateDataStructures envA ctxOff 3 { id := JsVal.num 1, table := "T" } "T"
      (Sels.cons (Selection.inlineFrag "U" qF) Sels.nil) rootParentA initialStructures =
      .ok (0,
        { initialStructures with
            populateCalls := initialStructures.populateCalls + 1
            labelMap := markQueryAsConsideredForNode initialStructures.labelMap { id := JsVal.num 1, table := "T" } (Sels.cons (Selection.inlineFrag "U" qF) Sels.nil)
            resultMap := initializeDataStructures initialStructures.resultMap (getMapKey { id := JsVal.num 1, table := "T" } (Sels.cons (Selection.inlineFrag "U" qF) Sels.nil))
            sizeMap := smSet initialStructures.sizeMap (getMapKey { id := JsVal.num 1, table := "T" } (Sels.cons (Selection.inlineFrag "U" qF) Sels.nil)) 0 }) :=
  ⟨by decide,
   (claim_C7_fragment_gating envA ctxOff 2 { id := JsVal.num 1, table := "T" } "T" "U" qF
      rootParentA initialStructures (by decide) rfl rfl).1⟩

/-- C9 counterexample: with early termination on, threshold 1 and global
size 2, `checkTermination` sets the early-termination reason; if the
timeout timer then fires, line 66 of calculate.js overwrites the field
unconditionally, replacing the reason — refuting the claim that the
termination reason is never replaced under every interleaving. -/
theorem claim_C9_counterexample :
    (checkTermination { threshold := 1, terminateEarly := true }
        { initialStructures with globalSize := 2 }).2.errorCode =
      some "EARLY_TERMINATION_RESULT_SIZE_LIMIT_EXCEEDED" ∧
    (timerFire (checkTermination { threshold := 1, terminateEarly := true }
        { initialStructures with globalSize := 2 }).2).errorCode =
      some "MAX_QUERY_TIME_EXCEEDED" ∧
    some "MAX_QUERY_TIME_EXCEEDED" ≠ some "EARLY_TERMINATION_RESULT_SIZE_LIMIT_EXCEEDED" :=
  ⟨rfl, rfl, by decide⟩

/-- C9 amended: the termination state is one-way in the sense that a
non-null `errorCode` never becomes null again — `checkTermination` never
modifies an already-set reason and the timer always leaves the field
non-null — but the timer write is unconditional, so the *reason* can still
be replaced (by MAX_QUERY_TIME_EXCEEDED) after early termination has been
signaled. -/
theorem claim_C9_one_way_termination (ctx : Ctx) (s : Structures) (c : String)
    (hec : s.errorCode = some c) :
    (checkTermination ctx s).2.errorCode = some c ∧
    (timerFire s).errorCode = some "MAX_QUERY_TIME_EXCEEDED" ∧
    (∀ s2 : Structures, s2.errorCode ≠ none →
      (checkTermination ctx s2).2.errorCode ≠ none ∧ (timerFire s2).errorCode ≠ none) := by
  refine ⟨by rw [checkTermination_some ctx s c hec]; exact hec, rfl, ?_⟩
  intro s2 h2
  constructor
  · cases hec2 : s2.errorCode with
    | some c2 => rw [checkTermination_some ctx s2 c2 hec2]; simp only [hec2]; exact Option.some_ne_none c2
    | none => exact absurd hec2 h2
  · simp [timerFire]

/-- C9 amended witness: instantiated at a state already carrying the
early-termination reason. -/
theorem claim_C9_one_way_termination_witness :
    (checkTermination { threshold := 1, terminateEarly := true }
        { initialStructures with errorCode := some "EARLY_TERMINATION_RESULT_SIZE_LIMIT_EXCEEDED" }).2.errorCode =
      some "EARLY_TERMINATION_RESULT_SIZE_LIMIT_EXCEEDED" :=
  (claim_C9_one_way_termination { threshold := 1, terminateEarly := true }
    { initialStructures with errorCode := some "EARLY_TERMINATION_RESULT_SIZE_LIMIT_EXCEEDED" }
    "EARLY_TERMINATION_RESULT_SIZE_LIMIT_EXCEEDED" rfl).1

/-- C10: a threshold of 0 disables size limiting entirely.  With threshold
0 (and the timeout timer out of the model, as the claim assumes no timeout
fires), `queryCalculator` never throws any error code: the early-
termination check requires a nonzero threshold, so the error code stays
null, and the final `resultSize > threshold` comparison is guarded by
`threshold != 0` — regardless of the computed size and of the
`terminateEarly` flag. -/
theorem claim_C10_zero_threshold_disables_limit (env : Env) (te : Bool) (fuel pfuel : Nat)
    (rootNode : Node) (rootType : String) (query : Sels) (rootParent : JsVal) (c : String) :
    queryCalculator env { threshold := 0, terminateEarly := te } fuel pfuel
      rootNode rootType query rootParent ≠ .rejected c := by
  unfold queryCalculator
  cases hrun : populateDataStructures env { threshold := 0, terminateEarly := te } fuel
      rootNode rootType query rootParent initialStructures with
  | error e => simp
  | ok r =>
    obtain ⟨sz, s2⟩ := r
    have hec : s2.errorCode = none :=
      populate_quiet env { threshold := 0, terminateEarly := te } (Or.inr rfl) fuel
        rootNode rootType query rootParent initialStructures sz s2 hrun rfl
    dsimp only
    rw [hec]
    simp

/-- C8 counterexample: with the termination flag already set (errorCode =
MAX_QUERY_TIME_EXCEEDED), evaluating the scalar query { f } performs no
resolver call (resolverCalls stays 0) — but the suppressed call records
size 3, not 0: `updateDataStructuresForScalarFieldValue` is still run on
the substituted null value, which contributes the fixed non-array cost 3,
refuting the "contributes 0 to the computed size" part of the claim. -/
theorem claim_C8_counterexample :
    populateDataStructures envA ctxOff 2 rootNodeA "Query" qF rootParentA
      { labelMap := [], sizeMap := [], resultMap := [], hits := 0, globalSize := 0,
        errorCode := some "MAX_QUERY_TIME_EXCEEDED", resolverCalls := 0, populateCalls := 0 } =
      .ok (3,
        { labelMap := [(rootNodeA, [qF])],
          sizeMap := [(getMapKey rootNodeA qF, 3)],
          resultMap := [(getMapKey rootNodeA qF, [RElem.lit "\"f\":", RElem.val JsVal.null])],
          hits := 0, globalSize := 3,
          errorCode := some "MAX_QUERY_TIME_EXCEEDED",
          resolverCalls := 0, populateCalls := 1 }) ∧
    (3 : Nat) ≠ 0 :=
  ⟨rfl, by decide⟩

/-- C8 amended: once errorCode is non-null, `resolveField` returns null
without invoking the backend (the resolver-call counter is unchanged and
the state is passed through untouched), and a fresh scalar-field
evaluation under a set errorCode makes no resolver call — but it records
the fixed scalar size 3 (the cost of the substituted null), not 0. -/
theorem claim_C8_resolver_suppression (env : Env) (ctx : Ctx) (fuel : Nat) (u : Node)
    (uType fieldName : String) (fd : FieldDef) (parent : JsVal) (s : Structures) (c : String)
    (hec : s.errorCode = some c)
    (hfresh : queryAlreadyConsideredForNode s.labelMap u (Sels.cons (Selection.scalarField fieldName) Sels.nil) = false)
    (hfd : env.fields uType fieldName = some fd) :
    resolveField env ctx parent fieldName s = (JsVal.null, s) ∧
    ∃ S : Structures,
      populateDataStructures env ctx (fuel + 1) u uType
        (Sels.cons (Selection.scalarField fieldName) Sels.nil) parent s = .ok (3, S) ∧
      S.resolverCalls = s.resolverCalls ∧
      S.errorCode = some c := by
  refine ⟨resolveField_some_ec env ctx parent fieldName s c hec, ?_⟩
  rw [populate_fresh_scalar env ctx fuel u uType fieldName fd parent s hfresh hfd]
  dsimp only
  have h2 := resolveField_some_ec env ctx parent fieldName
    { labelMap := markQueryAsConsideredForNode s.labelMap u (Sels.cons (Selection.scalarField fieldName) Sels.nil)
      sizeMap := s.sizeMap
      resultMap := initializeDataStructures s.resultMap (getMapKey u (Sels.cons (Selection.scalarField fieldName) Sels.nil))
      hits := s.hits
      globalSize := s.globalSize
      errorCode := s.errorCode
      resolverCalls := s.resolverCalls
      populateCalls := s.populateCalls + 1 } c hec
  rw [h2]
  exact ⟨_, rfl, rfl, hec⟩

/-- C8 amended witness: the suppressed { f } evaluation at a flagged state
returns size 3 with the resolver counter unchanged. -/
theorem claim_C8_resolver_suppression_witness :
    resolveField envA ctxOff rootParentA "f"
      { labelMap := [], sizeMap := [], resultMap := [], hits := 0, globalSize := 0,
        errorCode := some "MAX_QUERY_TIME_EXCEEDED", resolverCalls := 0, populateCalls := 0 } =
      (JsVal.null,
        { labelMap := [], sizeMap := [], resultMap := [], hits := 0, globalSize := 0,
          errorCode := some "MAX_QUERY_TIME_EXCEEDED", resolverCalls := 0, populateCalls := 0 }) ∧
    ∃ S : Structures,
      populateDataStructures envA ctxOff 2 rootNodeA "Query"
        (Sels.cons (Selection.scalarField "f") Sels.nil) rootParentA
        { labelMap := [], sizeMap := [], resultMap := [], hits := 0, globalSize := 0,
          errorCode := some "MAX_QUERY_TIME_EXCEEDED", resolverCalls := 0, populateCalls := 0 } =
        .ok (3, S) ∧
      S.resolverCalls =
        ({ labelMap := [], sizeMap := [], resultMap := [], hits := 0, globalSize := 0,
           errorCode := some "MAX_QUERY_TIME_EXCEEDED", resolverCalls := 0, populateCalls := 0 } : Structures).resolverCalls ∧
      S.errorCode = some "MAX_QUERY_TIME_EXCEEDED" :=
  claim_C8_resolver_suppression envA ctxOff 1 rootNodeA "Query" "f" fdInt rootParentA
    { labelMap := [], sizeMap := [], resultMap := [], hits := 0, globalSize := 0,
      errorCode := some "MAX_QUERY_TIME_EXCEEDED", resolverCalls := 0, populateCalls := 0 }
    "MAX_QUERY_TIME_EXCEEDED" rfl rfl rfl

/-- C1: Memoization.  (i) A (node, sub-selection) key that is already
marked seen is never dispatched to any of the four populate branches
again: when its stored size is available, the call returns that size,
increments only the hit counter (and the ghost call counter) and adds the
memoized size to the running global size — the label map, size map,
result map and resolver-call counter are all left untouched.  (ii) Call
accounting from the initial state: in every completed walk, the number of
populate entries equals the number of distinct labeled keys plus the
number of hits; since each distinct key is labeled exactly once (by its
first encounter), a pair occurring k times contributes exactly k − 1
hits, and its backend resolution is dispatched at most once. -/
theorem claim_C1_memoization :
    (∀ (env : Env) (ctx : Ctx) (fuel : Nat) (u : Node) (uType : String) (query : Sels)
        (parent : JsVal) (s : Structures) (size : Nat),
      queryAlreadyConsideredForNode s.labelMap u query = true →
      smGet s.sizeMap (getMapKey u query) = some size →
      populateDataStructures env ctx (fuel + 1) u uType query parent s =
        .ok (size,
          { s with
              populateCalls := s.populateCalls + 1
              hits := s.hits + 1
              globalSize := s.globalSize + size })) ∧
    (∀ (env : Env) (ctx : Ctx) (fuel : Nat) (u : Node) (uType : String) (query : Sels)
        (parent : JsVal) (sz : Nat) (s2 : Structures),
      populateDataStructures env ctx fuel u uType query parent initialStructures = .ok (sz, s2) →
      s2.populateCalls = labelCount s2.labelMap + s2.hits) := by
  constructor
  · intro env ctx fuel u uType query parent s size h hs
    exact populate_hit_some env ctx fuel u uType query parent s size h hs
  · intro env ctx fuel u uType query parent sz s2 h
    have hb := populate_basic env ctx fuel u uType query parent initialStructures sz s2 h
    have h2 := hb.2
    simp only [initialStructures, labelCount, List.map_nil, List.sum_nil] at h2
    simp only [labelCount]
    omega

/-- C1 witness: at a state where (rootNodeA, \x7b f \x7d) is already labeled
with stored size 3, a repeat encounter returns 3, bumps only the hit and
call counters and the global size, and leaves every map unchanged. -/
theorem claim_C1_memoization_witness :
    queryAlreadyConsideredForNode
      ([(rootNodeA, [qF])] : List (Node × List Sels)) rootNodeA qF = true ∧
    smGet ([(getMapKey rootNodeA qF, 3)] : List (MapKey × Nat)) (getMapKey rootNodeA qF) = some 3 ∧
    populateDataStructures envA ctxOff 1 rootNodeA "Query" qF rootParentA
      { labelMap := [(rootNodeA, [qF])], sizeMap := [(getMapKey rootNodeA qF, 3)],
        resultMap := [], hits := 0, globalSize := 0, errorCode := none,
        resolverCalls := 0, populateCalls := 0 } =
      .ok (3,
        { labelMap := [(rootNodeA, [qF])], sizeMap := [(getMapKey rootNodeA qF, 3)],
          resultMap := [], hits := 1, globalSize := 3, errorCode := none,
          resolverCalls := 0, populateCalls := 1 }) :=
  ⟨rfl, rfl,
   claim_C1_memoization.1 envA ctxOff 0 rootNodeA "Query" qF rootParentA
     { labelMap := [(rootNodeA, [qF])], sizeMap := [(getMapKey rootNodeA qF, 3)],
       resultMap := [], hits := 0, globalSize := 0, errorCode := none,
       resolverCalls := 0, populateCalls := 0 } 3 rfl rfl⟩

/-- C2 counterexample: the query \x7b f \x7d over backend envA has actual
result size 3, yet `queryCalculator` invoked with threshold 0 < 3 accepts
the response with errorCode OK — the final size comparison (line 97 of
calculate.js) is guarded by `threshold != 0`, so a threshold strictly
below the actual size does not produce a size-limit error when it is 0,
refuting "any threshold T1 < S produces an error code". -/
theorem claim_C2_counterexample :
    queryCalculator envA { threshold := 0, terminateEarly := false } 5 5
      rootNodeA "Query" qF rootParentA =
      .accepted 3 0 (Except.ok "\"f\":7") ∧
    (0 : Nat) < 3 :=
  ⟨rfl, by decide⟩

/-- C2 amended: threshold monotonicity holds for NONZERO thresholds. Let S
be the size computed by an unconstrained run (threshold 0, no early
termination).  Then a run with threshold T ≠ 0 and T < S is rejected —
with RESULT_SIZE_LIMIT_EXCEEDED by the final check, or already with
EARLY_TERMINATION_RESULT_SIZE_LIMIT_EXCEEDED when early termination is
on — and a run with T ≥ S (or with the exempt threshold T = 0) is
accepted with errorCode OK and reported size S.  The node-coherence
hypothesis `KeyParentFun` is the spec's data-model assumption that a node
determines its parent value (required for memoization correctness). -/
theorem claim_C2_threshold_monotonicity (env : Env) (ctx : Ctx) (fuel pfuel : Nat)
    (rootNode : Node) (rootType : String) (query : Sels) (rootParent : JsVal)
    (S : Nat) (s0 : Structures) (sz : Nat) (s2 : Structures)
    (hkf : KeyParentFun env rootNode rootParent)
    (hrt : rootType = rootNode.table)
    (hrun0 : populateDataStructures env { threshold := 0, terminateEarly := false } fuel
      rootNode rootType query rootParent initialStructures = .ok (S, s0))
    (hrun : populateDataStructures env ctx fuel rootNode rootType query rootParent
      initialStructures = .ok (sz, s2)) :
    (ctx.threshold ≠ 0 → ctx.threshold < S →
      queryCalculator env ctx fuel pfuel rootNode rootType query rootParent =
        .rejected "RESULT_SIZE_LIMIT_EXCEEDED" ∨
      queryCalculator env ctx fuel pfuel rootNode rootType query rootParent =
        .rejected "EARLY_TERMINATION_RESULT_SIZE_LIMIT_EXCEEDED") ∧
    (S ≤ ctx.threshold ∨ ctx.threshold = 0 →
      queryCalculator env ctx fuel pfuel rootNode rootType query rootParent =
        .accepted S s2.hits (produceResult s2.resultMap pfuel (getMapKey rootNode query))) := by
  have hec0 : s0.errorCode = none :=
    populate_quiet env { threshold := 0, terminateEarly := false } (Or.inl rfl) fuel
      rootNode rootType query rootParent initialStructures S s0 hrun0 rfl
  have hm0 := populate_main env { threshold := 0, terminateEarly := false } rootNode rootParent
    hkf fuel rootNode rootType query rootParent initialStructures S s0 hrun0 hrt
    (Or.inl ⟨rfl, rfl⟩) (sizeInvM_initial env rootNode rootParent) rfl
  have hS : S = pureSize env rootNode query rootParent := ((hm0.2) hec0).1
  have hb := populate_basic env ctx fuel rootNode rootType query rootParent
    initialStructures sz s2 hrun
  have hm := populate_main env ctx rootNode rootParent hkf fuel rootNode rootType query
    rootParent initialStructures sz s2 hrun hrt (Or.inl ⟨rfl, rfl⟩)
    (sizeInvM_initial env rootNode rootParent) rfl
  constructor
  · intro hT0 hTS
    cases hec2 : s2.errorCode with
    | some c =>
      have hc : c = "EARLY_TERMINATION_RESULT_SIZE_LIMIT_EXCEEDED" := by
        rcases hb.1 with h | ⟨_, h⟩
        · rw [hec2] at h
          exact Option.noConfusion h
        · rw [hec2] at h
          exact Option.some.inj h
      right
      unfold queryCalculator
      rw [hrun]
      dsimp only
      rw [hec2, hc]
    | none =>
      have hsz : sz = pureSize env rootNode query rootParent := ((hm.2) hec2).1
      left
      unfold queryCalculator
      rw [hrun]
      dsimp only
      rw [hec2]
      have hcond : (ctx.threshold != 0 && decide (ctx.threshold < sz)) = true := by
        have : ctx.threshold < sz := by omega
        simp [bne, hT0, this]
      rw [hcond]
      simp
  · intro hle
    have hNT : NoTrig ctx (initialStructures.globalSize + pureSize env rootNode query rootParent) := by
      rcases hle with h | h
      · right
        right
        simp only [initialStructures]
        omega
      · right
        left
        exact h
    have hec2 : s2.errorCode = none := hm.1 hNT
    have hsz : sz = pureSize env rootNode query rootParent := ((hm.2) hec2).1
    unfold queryCalculator
    rw [hrun]
    dsimp only
    rw [hec2]
    have hcond : (ctx.threshold != 0 && decide (ctx.threshold < sz)) = false := by
      rcases hle with h | h
      · have : ¬ ctx.threshold < sz := by omega
        simp [this]
      · simp [h, bne]
    rw [hcond]
    have hszS : sz = S := by omega
    rw [hszS]
    simp

/-- C2 amended witness: over backend envA the query \x7b f \x7d has
unconstrained size 3; with threshold 1 < 3 the run is rejected. -/
theorem claim_C2_threshold_monotonicity_witness :
    queryCalculator envA { threshold := 1, terminateEarly := false } 5 5
      rootNodeA "Query" qF rootParentA = .rejected "RESULT_SIZE_LIMIT_EXCEEDED" ∨
    queryCalculator envA { threshold := 1, terminateEarly := false } 5 5
      rootNodeA "Query" qF rootParentA = .rejected "EARLY_TERMINATION_RESULT_SIZE_LIMIT_EXCEEDED" :=
  (claim_C2_threshold_monotonicity envA { threshold := 1, terminateEarly := false } 5 5
    rootNodeA "Query" qF rootParentA _ _ _ _
    (keyParentFun_idField_none envA rootNodeA rootParentA (fun _ => rfl) rfl)
    rfl rfl rfl).1 (by decide) (by decide)

/-- C4: Concatenation additivity.  For a selection of n > 1 sibling items
at a node u, when no early termination occurs (the combined run ends with
errorCode OK), the size recorded for (u, selection) equals the sum of the
sizes each singleton selection (u, [item]) computes in an independent run
that also completes without termination, plus (n − 1) for the separators
between the items.  `KeyParentFun` is the spec's data-model coherence
assumption; `SizeInvM` says every size already memoized in the store is
the correct (reference) size of its key. -/
theorem claim_C4_concatenation_additivity (env : Env) (ctx : Ctx) (rootNode : Node)
    (rootParent : JsVal) (fuel : Nat) (u : Node) (uType : String) (parent : JsVal)
    (a b : Selection) (rest : Sels) (q : Sels) (s : Structures) (sz : Nat)
    (s2 : Structures) (szs : List Nat)
    (hkf : KeyParentFun env rootNode rootParent)
    (hq : q = Sels.cons a (Sels.cons b rest))
    (huT : uType = u.table)
    (hKP : KeyParent env rootNode rootParent u parent)
    (hinv : SizeInvM env rootNode rootParent s.sizeMap)
    (hec : s.errorCode = none)
    (hrun : populateDataStructures env ctx fuel u uType q parent s = .ok (sz, s2))
    (hec2 : s2.errorCode = none)
    (hsingles : List.Forall₂ (fun item szi => ∃ (fi : Nat) (si sfin : Structures),
        populateDataStructures env ctx fi u uType (Sels.cons item Sels.nil) parent si = .ok (szi, sfin) ∧
        SizeInvM env rootNode rootParent si.sizeMap ∧ si.errorCode = none ∧ sfin.errorCode = none)
      q.toList szs) :
    sz = szs.sum + (q.length - 1) := by
  have hm := populate_main env ctx rootNode rootParent hkf fuel u uType q parent s sz s2
    hrun huT hKP hinv hec
  have hsz : sz = pureSize env u q parent := ((hm.2) hec2).1
  have hpt : ∀ item szi, (∃ (fi : Nat) (si sfin : Structures),
      populateDataStructures env ctx fi u uType (Sels.cons item Sels.nil) parent si = .ok (szi, sfin) ∧
      SizeInvM env rootNode rootParent si.sizeMap ∧ si.errorCode = none ∧ sfin.errorCode = none) →
      szi = pureSize env u (Sels.cons item Sels.nil) parent := by
    rintro item szi ⟨fi, si, sfin, hri, hinvi, heci, hecfi⟩
    have hmi := populate_main env ctx rootNode rootParent hkf fi u uType
      (Sels.cons item Sels.nil) parent si szi sfin hri huT hKP hinvi heci
    exact ((hmi.2) hecfi).1
  have haux : ∀ (l : List Selection) (zs : List Nat),
      List.Forall₂ (fun item szi => ∃ (fi : Nat) (si sfin : Structures),
        populateDataStructures env ctx fi u uType (Sels.cons item Sels.nil) parent si = .ok (szi, sfin) ∧
        SizeInvM env rootNode rootParent si.sizeMap ∧ si.errorCode = none ∧ sfin.errorCode = none) l zs →
      zs = l.map (fun x => pureSize env u (Sels.cons x Sels.nil) parent) := by
    intro l
    induction l with
    | nil =>
      intro zs hz
      cases hz
      rfl
    | cons x xs ih =>
      intro zs hz
      cases hz with
      | cons h1 h2 =>
        rename_i z zs2
        rw [List.map_cons, hpt x z h1, ih zs2 h2]
  have hmap := haux q.toList szs hsingles
  subst hq
  rw [hsz, pureSize_cons_sum env u parent a (Sels.cons b rest),
    sumSingles_toList env u parent (Sels.cons a (Sels.cons b rest)), ← hmap]

/-- C4 witness: the two-field query \x7b f g \x7d computes size 7 =
3 + 3 + 1: the two singleton runs each compute 3, plus one separator. -/
theorem claim_C4_concatenation_additivity_witness :
    (7 : Nat) = ([3, 3] : List Nat).sum + (qFG.length - 1) :=
  claim_C4_concatenation_additivity envA ctxOff rootNodeA rootParentA 5 rootNodeA "Query"
    rootParentA (Selection.scalarField "f") (Selection.scalarField "g") Sels.nil qFG
    initialStructures 7 _ [3, 3]
    (keyParentFun_idField_none envA rootNodeA rootParentA (fun _ => rfl) rfl)
    rfl rfl (Or.inl ⟨rfl, rfl⟩) (sizeInvM_initial envA rootNodeA rootParentA) rfl rfl rfl
    (List.Forall₂.cons
      ⟨5, initialStructures, _, rfl, sizeInvM_initial envA rootNodeA rootParentA, rfl, rfl⟩
      (List.Forall₂.cons
        ⟨5, initialStructures, _, rfl, sizeInvM_initial envA rootNodeA rootParentA, rfl, rfl⟩
        List.Forall₂.nil))

/-- C10 witness: with threshold 0 and early termination on, the \x7b f \x7d
run is not rejected with a size-limit code. -/
theorem claim_C10_zero_threshold_disables_limit_witness :
    queryCalculator envA { threshold := 0, terminateEarly := true } 5 5
      rootNodeA "Query" qF rootParentA ≠ .rejected "RESULT_SIZE_LIMIT_EXCEEDED" :=
  claim_C10_zero_threshold_disables_limit envA true 5 5 rootNodeA "Query" qF rootParentA
    "RESULT_SIZE_LIMIT_EXCEEDED"
